import Mathlib

/-!
Shallow embedding of the `project-ai-services` deployment orchestrator
(`cmd/application/create.go` and the `helpers` package) in Lean 4.

Conventions used throughout:
* Go strings are Lean `String`s; where character-level reasoning is needed
  (the SMT-level command output) we work on `List Char`.
* Go maps are association lists (`List (key × value)`); Go map iteration
  order is the list order (one fixed serialization of the arbitrary order).
* Goroutine fan-out inside a layer is serialized in the declared template
  order: the mutex around the address pool makes every interleaving
  equivalent to some serialization, and the modelled properties are
  insensitive to which one is chosen.
* Fallible Go functions return `Except String` / `Option`.
* External collaborators (the podman runtime, template rendering) are
  parameters of the model.
-/

namespace AIServices

/-! ### Character and decimal-string utilities

Models of the Go standard-library pieces the source uses:
`strconv.Atoi`, `strings.TrimSpace`, and decimal formatting of the
host command output. -/

/-- The character `-` (written via its code point to keep names readable). -/
def charMinus : Char := Char.ofNat 45

/-- The character `+`. -/
def charPlus : Char := Char.ofNat 43

/-- The character `0`. -/
def char0 : Char := Char.ofNat 48

/-- ASCII decimal digit test (models the digit class used by `strconv.Atoi`). -/
def isDigitChar (c : Char) : Bool :=
  decide (48 ≤ c.toNat) && decide (c.toNat ≤ 57)

/-- Whitespace test (models the characters `strings.TrimSpace` removes;
ASCII space, tab, LF, CR suffice for the command output modelled here). -/
def isSpaceChar (c : Char) : Bool :=
  decide (c.toNat = 32) || decide (c.toNat = 9) || decide (c.toNat = 10) || decide (c.toNat = 13)

/-- Numeric value of a digit character. -/
def digitVal (c : Char) : Nat := c.toNat - 48

/-- Parse a non-empty all-digit character list as a natural number
(the digit-loop core of `strconv.Atoi`). -/
def parseNatDigits (cs : List Char) : Option Nat :=
  if cs ≠ [] ∧ cs.all isDigitChar then
    some (cs.foldl (fun a c => a * 10 + digitVal c) 0)
  else none

/-- Model of Go `strconv.Atoi` on the characters of the string: an optional
sign followed by at least one digit; no surrounding spaces.  (Go's int-range
failure is not modelled; no claim depends on overflow.) -/
def atoiChars (cs : List Char) : Option Int :=
  match cs with
  | [] => none
  | c :: rest =>
    if c = charMinus then (parseNatDigits rest).map (fun n => -(n : Int))
    else if c = charPlus then (parseNatDigits rest).map (fun n => (n : Int))
    else (parseNatDigits (c :: rest)).map (fun n => (n : Int))

/-- Model of Go `strconv.Atoi` on a `String`. -/
def atoi (s : String) : Option Int := atoiChars s.data

/-- Big-endian decimal digit characters of a positive natural number,
with explicit fuel (any `fuel ≥ n` is enough). -/
def natToDecAux : Nat → Nat → List Char
  | 0, _ => []
  | fuel + 1, n =>
    if n = 0 then [] else natToDecAux fuel (n / 10) ++ [Nat.digitChar (n % 10)]

/-- Big-endian decimal digit characters of a natural number. -/
def natToDecChars (n : Nat) : List Char :=
  if n = 0 then [char0] else natToDecAux n n

theorem natToDecAux_eq_digits : ∀ fuel n : Nat, n ≤ fuel →
    natToDecAux fuel n = ((Nat.digits 10 n).reverse.map Nat.digitChar) := by
  intro fuel
  induction fuel with
  | zero =>
    intro n hn
    interval_cases n
    simp [natToDecAux]
  | succ fuel ih =>
    intro n hn
    by_cases h0 : n = 0
    · simp [natToDecAux, h0]
    · rw [natToDecAux, if_neg h0, ih (n / 10) (by omega),
        Nat.digits_def' (by norm_num : 1 < 10) (Nat.pos_of_ne_zero h0)]
      simp

theorem natToDecChars_eq (n : Nat) :
    natToDecChars n = if n = 0 then [char0] else ((Nat.digits 10 n).reverse.map Nat.digitChar) := by
  unfold natToDecChars
  split
  · rfl
  · exact natToDecAux_eq_digits n n le_rfl

/-- Decimal character representation of an integer (Go `strconv.Itoa`). -/
def intToDecChars (z : Int) : List Char :=
  if z < 0 then charMinus :: natToDecChars (-z).toNat else natToDecChars z.toNat

/-- Model of Go `strings.TrimSpace` on a character list. -/
def trimChars (cs : List Char) : List Char :=
  ((cs.dropWhile isSpaceChar).reverse.dropWhile isSpaceChar).reverse

theorem digitVal_digitChar {d : Nat} (h : d < 10) : digitVal (Nat.digitChar d) = d := by
  interval_cases d <;> decide

theorem isDigitChar_digitChar {d : Nat} (h : d < 10) : isDigitChar (Nat.digitChar d) = true := by
  interval_cases d <;> decide

theorem natToDecChars_all_digits (n : Nat) : (natToDecChars n).all isDigitChar = true := by
  rw [natToDecChars_eq]
  split
  · decide
  · rw [List.all_eq_true]
    intro c hc
    simp only [List.mem_map, List.mem_reverse] at hc
    obtain ⟨d, hd, rfl⟩ := hc
    exact isDigitChar_digitChar (Nat.digits_lt_base (by norm_num) hd)

theorem natToDecChars_ne_nil (n : Nat) : natToDecChars n ≠ [] := by
  rw [natToDecChars_eq]
  split
  · simp
  · simp only [ne_eq, List.map_eq_nil_iff, List.reverse_eq_nil_iff]
    intro hcon
    simp_all [Nat.digits_eq_nil_iff_eq_zero]

theorem foldl_digits_eq_ofDigits (L : List Nat) (hL : ∀ d ∈ L, d < 10) :
    ((L.reverse.map Nat.digitChar).foldl (fun a c => a * 10 + digitVal c) 0) =
      Nat.ofDigits 10 L := by
  rw [List.map_reverse, List.foldl_reverse]
  induction L with
  | nil => simp [Nat.ofDigits]
  | cons d L ih =>
    simp only [List.map_cons, List.foldr_cons, Nat.ofDigits_cons]
    rw [ih (fun x hx => hL x (List.mem_cons_of_mem _ hx)),
      digitVal_digitChar (hL d (List.mem_cons_self _ _))]
    ring

theorem parseNatDigits_natToDecChars (n : Nat) :
    parseNatDigits (natToDecChars n) = some n := by
  unfold parseNatDigits
  rw [if_pos ⟨natToDecChars_ne_nil n, natToDecChars_all_digits n⟩]
  rw [natToDecChars_eq]
  split
  · simp_all [digitVal, char0]
  · rw [foldl_digits_eq_ofDigits _ (fun d hd => Nat.digits_lt_base (by norm_num) hd),
      Nat.ofDigits_digits]

theorem isDigitChar_ne_signs {c : Char} (h : isDigitChar c = true) :
    c ≠ charMinus ∧ c ≠ charPlus := by
  constructor <;> rintro rfl <;> exact absurd h (by decide)

theorem atoiChars_intToDecChars (z : Int) : atoiChars (intToDecChars z) = some z := by
  unfold intToDecChars
  split
  case isTrue hneg =>
    simp only [atoiChars, if_pos rfl, parseNatDigits_natToDecChars]
    simp
    omega
  case isFalse hpos =>
    have hall := natToDecChars_all_digits z.toNat
    have hne := natToDecChars_ne_nil z.toNat
    rcases hcs : natToDecChars z.toNat with _ | ⟨c, rest⟩
    · exact absurd hcs hne
    · rw [hcs] at hall
      have hdc : isDigitChar c = true := by
        rw [List.all_eq_true] at hall
        exact hall c (List.mem_cons_self _ _)
      obtain ⟨h1, h2⟩ := isDigitChar_ne_signs hdc
      simp only [atoiChars, if_neg h1, if_neg h2, ← hcs, parseNatDigits_natToDecChars]
      simp
      omega

theorem isDigitChar_not_space {c : Char} (h : isDigitChar c = true) : isSpaceChar c = false := by
  simp only [isDigitChar, Bool.and_eq_true, decide_eq_true_eq] at h
  simp only [isSpaceChar, Bool.or_eq_false_iff, decide_eq_false_iff_not]
  omega

theorem dropWhile_eq_self_of_head {p : Char → Bool} :
    ∀ cs : List Char, (∀ c ∈ cs, p c = false) → cs.dropWhile p = cs := by
  intro cs h
  cases cs with
  | nil => rfl
  | cons c rest =>
    rw [List.dropWhile_cons, if_neg]
    simp [h c (List.mem_cons_self _ _)]

theorem trimChars_eq_self {cs : List Char} (h : ∀ c ∈ cs, isSpaceChar c = false) :
    trimChars cs = cs := by
  unfold trimChars
  rw [dropWhile_eq_self_of_head cs h,
    dropWhile_eq_self_of_head cs.reverse (fun c hc => h c (List.mem_reverse.mp hc)),
    List.reverse_reverse]

/-! ### SMT provisioner (`create.go`: `getSMTLevel`, `setSMTLevel`)

The host is modelled by its current SMT level (an integer).  The external
command `ppc64_cpu --smt` prints `SMT=<level>`; `ppc64_cpu --smt=<n>` applies
an abstract set operation `setOp` (its result may differ from the request,
which is what the verification step of the source guards against). -/

/-- The characters of the literal prefix `SMT=`. -/
def smtPrefix : List Char := ("SMT=").data

/-- Output of the host query command `ppc64_cpu --smt` for a host whose
current SMT level is `level` (characters of `SMT=<level>`). -/
def querySMTOutput (level : Int) : List Char := smtPrefix ++ intToDecChars level

/-- From `create.go` `getSMTLevel`: trim the command output, require the
`SMT=` prefix, and parse the remainder with `strconv.Atoi`. -/
def getSMTLevel (output : List Char) : Except String Int :=
  let out := trimChars output
  if out.take 4 = smtPrefix then
    match atoiChars (out.drop 4) with
    | some n => .ok n
    | none => .error "failed to parse SMT level"
  else .error "unexpected output"

/-- From `create.go` `setSMTLevel`, with the template-metadata lookup already
performed (`target` is `appMetadata.SMTLevel`): query the current level; if no
target is configured or the current level already equals the target, succeed
without issuing any set operation; otherwise issue one set operation and
re-query to verify.  Returns the final host level and the number of set
operations issued. -/
def setSMTLevel (setOp : Int → Int → Int) (host : Int) (target : Option Int) :
    Except String (Int × Nat) :=
  match getSMTLevel (querySMTOutput host) with
  | .error e => .error e
  | .ok current =>
    match target with
    | none => .ok (host, 0)
    | some t =>
      if current = t then .ok (host, 0)
      else
        let host' := setOp t host
        match getSMTLevel (querySMTOutput host') with
        | .error e => .error e
        | .ok current' =>
          if current' = t then .ok (host', 1)
          else .error "SMT level verification failed"

theorem querySMTOutput_no_space (level : Int) :
    ∀ c ∈ querySMTOutput level, isSpaceChar c = false := by
  intro c hc
  rcases List.mem_append.mp hc with h | h
  · fin_cases h <;> decide
  · have hd : isDigitChar c = true ∨ c = charMinus := by
      unfold intToDecChars at h
      split at h
      · rcases List.mem_cons.mp h with rfl | h'
        · exact Or.inr rfl
        · exact Or.inl ((List.all_eq_true.mp (natToDecChars_all_digits _)) _ h')
      · exact Or.inl ((List.all_eq_true.mp (natToDecChars_all_digits _)) _ h)
    rcases hd with hd | rfl
    · exact isDigitChar_not_space hd
    · decide

/-- Round trip: parsing the query output of a host recovers its level. -/
theorem getSMTLevel_querySMTOutput (level : Int) :
    getSMTLevel (querySMTOutput level) = .ok level := by
  have h1 : trimChars ( smtPrefix ++ intToDecChars level) = smtPrefix ++ intToDecChars level :=
    trimChars_eq_self (querySMTOutput_no_space level)
  simp only [getSMTLevel, querySMTOutput, h1]
  rw [show (4 : Nat) = smtPrefix.length from rfl, List.take_left, List.drop_left,
    if_pos rfl, atoiChars_intToDecChars]

/-! ### Readiness prober (`helpers` package: `WaitForContainerReadiness`)

Time is modelled in seconds from poll start; the k-th inspection happens at
time `2 * k` (the loop sleeps 2 seconds between inspections, inspection
itself taking no modelled time).  `inspect k` is the runtime's answer to the
k-th `InspectContainer` call: an inspection error, or the optional health
status (`none` models `State.Health == nil`, i.e. no health check
configured).  The recursion is fueled; `none` means the fuel ran out before
the loop returned, which cannot happen once the deadline is reachable. -/

/-- The health status string podman reports for a ready container
(`Ready HealthStatus = "healthy"` in the source). -/
def readyStatus : String := "healthy"

/-- Outcome of `WaitForContainerReadiness`, tagged with the index of the
inspection at which the function returned (= number of 2-second sleeps
executed before returning). -/
inductive ProbeResult where
  | ok (polls : Nat)
  | inspectErr (polls : Nat)
  | timeout (polls : Nat)
  deriving DecidableEq, Repr

/-- From `helpers` `WaitForContainerReadiness`: the polling loop, starting at
inspection index `k` with `fuel` iterations allowed.  `deadline` is the
timeout duration in seconds (the deadline is poll start + timeout, and the
k-th iteration's `time.Now()` is `2 * k`). -/
def waitForContainerReadiness (inspect : Nat → Except String (Option String))
    (deadline : Int) : Nat → Nat → Option ProbeResult
  | 0, _ => none
  | fuel + 1, k =>
    match inspect k with
    | .error _ => some (.inspectErr k)
    | .ok none => some (.ok k)
    | .ok (some status) =>
      if status = readyStatus then some (.ok k)
      else if (2 * k : Int) > deadline then some (.timeout k)
      else waitForContainerReadiness inspect deadline fuel (k + 1)

/-! ### Annotation resource calculator
(`create.go`: `fetchSpyreCardsFromPodAnnotations`, `calculateReqSpyreCards`) -/

/-- Modelled from the spec: `vars.SpyreCardAnnotationRegex` is not under
`src/`; per the spec, matching keys have the form
`<namespace>/spyre-count.<container>` and the capture group is the container
name.  A key matches exactly when it starts with this fixed prefix, and the
remainder is the container name. -/
def spyreCardAnnotationPrefix : String := "engine.spyre.ibm.com/spyre-count."

/-- Strip a literal prefix from a character list, if present. -/
def listStripPrefix : List Char → List Char → Option (List Char)
  | [], s => some s
  | _ :: _, [] => none
  | c :: p, d :: s => if c = d then listStripPrefix p s else none

/-- Modelled from the spec: the `isSpyreCardAnnotation` closure of
`fetchSpyreCardsFromPodAnnotations`, built on the missing regex — returns
the container name (the remainder after the fixed prefix) when the key
matches the resource-count pattern. -/
def isSpyreCardAnnotation (key : String) : Option String :=
  match listStripPrefix spyreCardAnnotationPrefix.data key.data with
  | some rest => some (String.mk rest)
  | none => none

/-- Go map assignment `m[k] = v` on an association list: replace the value
if the key is present, else append the binding. -/
def assocReplace (m : List (String × Int)) (k : String) (v : Int) : List (String × Int) :=
  match m with
  | [] => [(k, v)]
  | (k', v') :: rest =>
    if k' = k then (k, v) :: rest else (k', v') :: assocReplace rest k v

/-- Loop of `fetchSpyreCardsFromPodAnnotations` over the annotation map
(association list in iteration order), parameterized by the key matcher `m`:
accumulates the running total and the per-container map, failing on the
first matching value that `strconv.Atoi` rejects. -/
def fetchSpyreAux (m : String → Option String) :
    List (String × String) → Int → List (String × Int) →
    Except String (Int × List (String × Int))
  | [], total, acc => .ok (total, acc)
  | (key, val) :: rest, total, acc =>
    match m key with
    | none => fetchSpyreAux m rest total acc
    | some containerName =>
      match atoi val with
      | none => .error ("failed to convert to int. Provided val: " ++ val ++ " is not of int type")
      | some valInt => fetchSpyreAux m rest (total + valInt) (assocReplace acc containerName valInt)

/-- From `create.go` `fetchSpyreCardsFromPodAnnotations`: returns the total
spyre-card count and the container-name → count map derived from the pod
annotations. -/
def fetchSpyreCardsFromPodAnnotations (m : String → Option String)
    (annotations : List (String × String)) : Except String (Int × List (String × Int)) :=
  fetchSpyreAux m annotations 0 []

/-- A pod template's parsed manifest, as far as the orchestrator reads it.
Modelled from the spec: `helpers.LoadPodTemplate`, `helpers.FetchPodAnnotations`
and `helpers.FetchContainerNames` are not under `src/`; they yield the pod's
annotation map and its container names. -/
structure PodSpec where
  annotations : List (String × String)
  containerNames : List String
  deriving DecidableEq, Repr

/-- The loaded templates: file name → parsed pod spec (`tmpls` in the source,
with template objects reduced to what the orchestrator reads from them). -/
abbrev Templates := List (String × PodSpec)

/-- From `create.go` `calculateReqSpyreCards`: sum the annotation-derived
total over every loaded template (first error aborts). -/
def calculateReqSpyreCards (templates : Templates) : Except String Int :=
  match templates with
  | [] => .ok 0
  | (_, spec) :: rest =>
    match fetchSpyreCardsFromPodAnnotations isSpyreCardAnnotation spec.annotations with
    | .error e => .error e
    | .ok (n, _) =>
      match calculateReqSpyreCards rest with
      | .error e => .error e
      | .ok total => .ok (total + n)

/-- From `create.go` `validateSpyreCardRequirements`: fail when fewer cards
are available than required. -/
def validateSpyreCardRequirements (req actual : Int) : Option String :=
  if actual < req then some "insufficient spyre cards" else none

/-! ### Template verification (`create.go`: `verifyPodTemplateExists`) -/

/-- From `create.go` `verifyPodTemplateExists` (with `utils.FlattenArray`
modelled as list flattening): the flattened `podTemplateExecutions` must have
as many entries as there are loaded templates, and every entry must be a
loaded template's name.  Returns `some` error message on failure. -/
def verifyPodTemplateExists (templateNames : List String)
    (podTemplateExecutions : List (List String)) : Option String :=
  let flat := podTemplateExecutions.flatten
  if flat.length ≠ templateNames.length then
    some "number of values specified in podTemplateExecutions under metadata.yml is mismatched"
  else
    match flat.find? (fun t => !templateNames.contains t) with
    | some t => some ("value: " ++ t ++ " specified in podTemplateExecutions under metadata.yml is invalid")
    | none => none

/-! ### Resource allocation
(`create.go`: `returnEnvParamsForPod`; `utils.JoinAndRemove`) -/

/-- Modelled from the spec: `utils.JoinAndRemove` is not under `src/`.  Per
§4.1 of the spec, allocation removes exactly `count` addresses from the
front of the pool and returns them (joined with the separator at the call
site), and fails with `InsufficientResources` when `count` exceeds the
remaining pool size; a negative count is not a valid count of addresses. -/
def allocate (pool : List String) (count : Int) : Option (List String × List String) :=
  if 0 ≤ count ∧ count.toNat ≤ pool.length then
    some (pool.take count.toNat, pool.drop count.toNat)
  else none

/-- Env value placed under the PCI-address key: the assigned addresses
joined with a single space (`utils.JoinAndRemove(pciAddresses, n, " ")`). -/
def joinAddrs (addrs : List String) : String := String.intercalate " " addrs

/-- Modelled from the spec: `constants.PCIAddressKey` is not under `src/`;
its concrete value is immaterial to every claim. -/
def pciAddressKey : String := "PCI_ADDRESS"

/-- Per-container environment: either left as the empty map or set to
`{pciAddressKey: joined addresses}`. -/
abbrev Env := List (String × List (String × String))

/-- State threaded through allocations: the remaining free pool, plus an
assignment log recording, per allocation, the container name and the
addresses handed to it (the log is the proof-visible trace of what the env
strings contain). -/
structure AllocState where
  pool : List String
  log : List (String × List String)
  deriving DecidableEq, Repr

/-- The mutex-guarded critical section of `returnEnvParamsForPod`: for each
container of the spyre-card map with a non-zero count, allocate that many
addresses from the shared pool and set the container's env entry.  Returns
the env overrides, any allocation errors, and the new state.  (The Go call
site cannot observe an allocation error; the spec's `InsufficientResources`
failure is recorded as a worker error.) -/
def allocateForContainers (st : AllocState) :
    List (String × Int) → Env → List String → Env × List String × AllocState
  | [], env, errs => (env, errs, st)
  | (containerName, count) :: rest, env, errs =>
    if count ≠ 0 then
      match allocate st.pool count with
      | some (assigned, remaining) =>
        allocateForContainers
          { pool := remaining, log := st.log ++ [(containerName, assigned)] }
          rest (assocEnvSet env containerName [(pciAddressKey, joinAddrs assigned)]) errs
      | none =>
        allocateForContainers st rest env
          (errs ++ ["insufficient spyre cards for container " ++ containerName])
    else allocateForContainers st rest env errs
where
  /-- Go map assignment on the env map. -/
  assocEnvSet (env : Env) (k : String) (v : List (String × String)) : Env :=
    match env with
    | [] => [(k, v)]
    | (k', v') :: rest => if k' = k then (k, v) :: rest else (k', v') :: assocEnvSet rest k v

/-- From `create.go` `returnEnvParamsForPod`: load the pod template, derive
the spyre-card map from its annotations, pre-populate every container with an
empty env, and—unless the pod needs no cards—run the critical section.
Returns the env, the worker errors this step produced, and the new state. -/
def returnEnvParamsForPod (templates : Templates) (name : String) (st : AllocState) :
    Env × List String × AllocState :=
  match templates.lookup name with
  | none => ([], ["failed to load pod Template: " ++ name], st)
  | some spec =>
    let env0 : Env := spec.containerNames.map (fun c => (c, []))
    match fetchSpyreCardsFromPodAnnotations isSpyreCardAnnotation spec.annotations with
    | .error e => (env0, [e], st)
    | .ok (spyreCards, containerMap) =>
      if spyreCards = 0 then (env0, [], st)
      else allocateForContainers st containerMap env0 []

/-! ### Layered deployment orchestrator
(`create.go`: `executePodTemplates`, `deployPodAndReadinessCheck`, `RunE`)

Template rendering (`text/template.Execute`) and the runtime's pod-create +
readiness sequence (`deployPodAndReadinessCheck`) are external effects,
abstracted as parameters: `render name env` and `deploy name` return the
step's error, if any.  Goroutines of one layer are serialized in template
order (see the header comment). -/

/-- What one worker goroutine (the body spawned per template in
`executePodTemplates`) produced: its errors in the order it sent them to the
error channel, whether it invoked the runtime's pod-create operation, and
the allocation state after it ran. -/
structure WorkerOut where
  errs : List String
  deployInvoked : Bool
  st : AllocState
  deriving Repr

/-- The worker body from `executePodTemplates` (lines 295–324 of
`create.go`): compute env params, render, deploy.  Note the Go code sends
each step's error to the channel but never returns early, so rendering and
deployment are attempted even after an earlier step failed. -/
def processTemplate (render : String → Env → Option String)
    (deploy : String → Option String) (templates : Templates)
    (name : String) (st : AllocState) : WorkerOut :=
  let (env, envErrs, st') := returnEnvParamsForPod templates name st
  let renderErrs := match render name env with
    | some e => [e]
    | none => []
  let deployErrs := match deploy name with
    | some e => [e]
    | none => []
  { errs := envErrs ++ renderErrs ++ deployErrs, deployInvoked := true, st := st' }

/-- Per-worker results of one layer, in template order. -/
structure LayerOut where
  results : List (String × List String)
  deploys : Nat
  st : AllocState
  deriving Repr

/-- Run every worker of one layer (the fan-out / fan-in of
`executePodTemplates`, serialized in template order). -/
def runLayer (render : String → Env → Option String) (deploy : String → Option String)
    (templates : Templates) (st : AllocState) : List String → LayerOut
  | [] => { results := [], deploys := 0, st := st }
  | name :: rest =>
    let w := processTemplate render deploy templates name st
    let lo := runLayer render deploy templates w.st rest
    { results := (name, w.errs) :: lo.results,
      deploys := (if w.deployInvoked then 1 else 0) + lo.deploys,
      st := lo.st }

/-- The errors a layer's fan-in collects from the error channel, tagged with
the template that sent them (the source wraps each with `layer %d:`; the
layer number rides on the returned error below). -/
def layerErrors (lo : LayerOut) : List (String × String) :=
  lo.results.flatMap (fun p => p.2.map (fun e => (p.1, e)))

/-- Overall statistics of a run, used to state what did and did not happen:
final pool, full assignment log, number of pod-create invocations, and the
number of layers that were started. -/
structure RunStats where
  pool : List String
  log : List (String × List String)
  deploys : Nat
  layersStarted : Nat
  deriving Repr

/-- The layer loop of `executePodTemplates`, starting at layer index `i`
(0-based; the source tags errors with `i + 1`): run a layer, collect its
errors, and stop — returning the joined, layer-tagged errors — if any
worker failed; otherwise continue with the next layer. -/
def execFrom (render : String → Env → Option String) (deploy : String → Option String)
    (templates : Templates) :
    List (List String) → Nat → AllocState → Nat →
    Except (Nat × List (String × String)) Unit × RunStats
  | [], i, st, deploys => (.ok (), ⟨st.pool, st.log, deploys, i⟩)
  | layer :: rest, i, st, deploys =>
    let lo := runLayer render deploy templates st layer
    let errs := layerErrors lo
    if errs.isEmpty then
      execFrom render deploy templates rest (i + 1) lo.st (deploys + lo.deploys)
    else
      (.error (i + 1, errs), ⟨lo.st.pool, lo.st.log, deploys + lo.deploys, i + 1⟩)

/-- From `create.go` `executePodTemplates`: execute all layers against the
discovered free pool. -/
def executePodTemplates (render : String → Env → Option String)
    (deploy : String → Option String) (templates : Templates)
    (podTemplateExecutions : List (List String)) (pciAddresses : List String) :
    Except (Nat × List (String × String)) Unit × RunStats :=
  execFrom render deploy templates podTemplateExecutions 0 ⟨pciAddresses, []⟩ 0

/-- Error cases of the `create` command pipeline. -/
inductive CreateErr where
  | verifyErr (msg : String)
  | annotationErr (msg : String)
  | insufficientResources (req : Int)
  | layerErr (layer : Nat) (errs : List (String × String))
  deriving Repr

/-- From `create.go` `createCmd.RunE`, from template verification onward
(SMT provisioning and template loading precede this and are modelled
separately): verify the referenced templates, compute the required card
count, discover the free pool (`pciAddresses` is the result of
`helpers.FindFreeSpyreCards`), validate the requirement, then execute the
layers. -/
def createApplication (render : String → Env → Option String)
    (deploy : String → Option String) (templates : Templates)
    (podTemplateExecutions : List (List String)) (pciAddresses : List String) :
    Except CreateErr Unit × RunStats :=
  let idleStats : RunStats := ⟨pciAddresses, [], 0, 0⟩
  match verifyPodTemplateExists (templates.map Prod.fst) podTemplateExecutions with
  | some e => (.error (.verifyErr e), idleStats)
  | none =>
    match calculateReqSpyreCards templates with
    | .error e => (.error (.annotationErr e), idleStats)
    | .ok req =>
      match validateSpyreCardRequirements req (pciAddresses.length : Int) with
      | some _ => (.error (.insufficientResources req), idleStats)
      | none =>
        match executePodTemplates render deploy templates podTemplateExecutions pciAddresses with
        | (.ok (), stats) => (.ok (), stats)
        | (.error (i, errs), stats) => (.error (.layerErr i errs), stats)

/-! ### Channel-faithful layer execution

The model above collects worker errors losslessly; the Go code does not:
`errCh := make(chan error, len(layer))` is a buffered channel of capacity
`len(layer)`, each worker sends up to three errors (env, render, deploy)
without returning early, and nothing receives from the channel until after
`wg.Wait()`.  A send on a full channel therefore blocks its worker forever:
the worker's remaining steps never run, its deferred `wg.Done()` never
fires, `wg.Wait()` never returns, and `executePodTemplates` produces no
result at all.  The definitions below add this capacity semantics: `slots`
is the channel's free space, a send with zero slots blocks the worker, a
layer with any blocked worker never reaches its fan-in (`none`), and in the
non-blocking case the behavior coincides with the lossless model above
(proved by the bridge lemmas).  As before, workers are serialized in
template order, which realizes one valid schedule. -/

/-- Outcome of sending a list of errors to the layer's buffered channel:
remaining free slots, the errors actually delivered, and whether the sender
blocked on a full channel. -/
structure SendOut where
  slots : Nat
  sent : List String
  blocked : Bool
  deriving DecidableEq, Repr

/-- Send errors one at a time; a send finding no free slot blocks the
worker (nobody receives before the fan-in). -/
def sendAll : Nat → List String → SendOut
  | slots, [] => ⟨slots, [], false⟩
  | 0, _ :: _ => ⟨0, [], true⟩
  | slots + 1, e :: rest =>
    let r := sendAll slots rest
    ⟨r.slots, e :: r.sent, r.blocked⟩

/-- What one worker goroutine did under channel semantics: the errors it
delivered, whether it blocked, whether it reached the pod-create call, the
allocation state it left, and the channel slots it left free. -/
structure ChWorkerOut where
  sent : List String
  blocked : Bool
  deployInvoked : Bool
  st : AllocState
  slots : Nat
  deriving Repr

/-- The worker body of `executePodTemplates` with the error channel's
capacity made explicit: each failing step sends its error before the next
step runs, and a blocked send halts the worker there — in particular a
block before the deploy step means the runtime's pod-create operation is
never invoked by this worker. -/
def processTemplateCh (render : String → Env → Option String)
    (deploy : String → Option String) (templates : Templates)
    (name : String) (st : AllocState) (slots : Nat) : ChWorkerOut :=
  let (env, envErrs, st') := returnEnvParamsForPod templates name st
  let s1 := sendAll slots envErrs
  if s1.blocked then ⟨s1.sent, true, false, st', s1.slots⟩
  else
    let renderErrs := match render name env with
      | some e => [e]
      | none => []
    let s2 := sendAll s1.slots renderErrs
    if s2.blocked then ⟨s1.sent ++ s2.sent, true, false, st', s2.slots⟩
    else
      let deployErrs := match deploy name with
        | some e => [e]
        | none => []
      let s3 := sendAll s2.slots deployErrs
      ⟨s1.sent ++ s2.sent ++ s3.sent, s3.blocked, true, st', s3.slots⟩

/-- Per-worker results of one layer under channel semantics. -/
structure ChLayerOut where
  results : List (String × List String)
  blockedAny : Bool
  deploys : Nat
  st : AllocState
  slots : Nat
  deriving Repr

/-- Run every worker of one layer under channel semantics (serialized in
template order; a blocked worker does not stop its siblings). -/
def runLayerCh (render : String → Env → Option String) (deploy : String → Option String)
    (templates : Templates) : AllocState → Nat → List String → ChLayerOut
  | st, slots, [] => ⟨[], false, 0, st, slots⟩
  | st, slots, name :: rest =>
    let w := processTemplateCh render deploy templates name st slots
    let lo := runLayerCh render deploy templates w.st w.slots rest
    ⟨(name, w.sent) :: lo.results, w.blocked || lo.blockedAny,
      (if w.deployInvoked then 1 else 0) + lo.deploys, lo.st, lo.slots⟩

/-- The delivered errors a layer's fan-in would collect, tagged with the
sending template. -/
def chLayerErrors (lo : ChLayerOut) : List (String × String) :=
  lo.results.flatMap (fun p => p.2.map (fun e => (p.1, e)))

/-- The layer loop of `executePodTemplates` under channel semantics: each
layer's channel has capacity `layer.length`; if any worker blocked, the
fan-in barrier never completes and the orchestrator never returns
(`none`). -/
def execFromCh (render : String → Env → Option String) (deploy : String → Option String)
    (templates : Templates) :
    List (List String) → Nat → AllocState → Nat →
    Option (Except (Nat × List (String × String)) Unit × RunStats)
  | [], i, st, deploys => some (.ok (), ⟨st.pool, st.log, deploys, i⟩)
  | layer :: rest, i, st, deploys =>
    let lo := runLayerCh render deploy templates st layer.length layer
    if lo.blockedAny then none
    else
      let errs := chLayerErrors lo
      if errs.isEmpty then
        execFromCh render deploy templates rest (i + 1) lo.st (deploys + lo.deploys)
      else
        some (.error (i + 1, errs), ⟨lo.st.pool, lo.st.log, deploys + lo.deploys, i + 1⟩)

/-- From `create.go` `executePodTemplates`, with the error channel's
capacity modelled: `none` means the function never returns. -/
def executePodTemplatesCh (render : String → Env → Option String)
    (deploy : String → Option String) (templates : Templates)
    (podTemplateExecutions : List (List String)) (pciAddresses : List String) :
    Option (Except (Nat × List (String × String)) Unit × RunStats) :=
  execFromCh render deploy templates podTemplateExecutions 0 ⟨pciAddresses, []⟩ 0

/-- All addresses recorded as handed out in an assignment log. -/
def logAddrs (log : List (String × List String)) : List String :=
  log.flatMap (fun p => p.2)

/-- The annotation-derived total card demand of one template, as the
pre-flight calculation computes it (0 when the template is missing or its
annotations fail to parse — both situations that independently abort). -/
def demandOf (templates : Templates) (name : String) : Int :=
  match templates.lookup name with
  | none => 0
  | some spec =>
    match fetchSpyreCardsFromPodAnnotations isSpyreCardAnnotation spec.annotations with
    | .error _ => 0
    | .ok (n, _) => n

/-! ### Concrete fixtures for witnesses (the spec's §8 scenario:
three templates with demands 1, 2 and 0). -/

/-- Fixture: template `a`, container `ca`, demand 1. -/
def tmplA : PodSpec := ⟨[("engine.spyre.ibm.com/spyre-count.ca", "1")], ["ca"]⟩

/-- Fixture: template `b`, container `cb`, demand 2. -/
def tmplB : PodSpec := ⟨[("engine.spyre.ibm.com/spyre-count.cb", "2")], ["cb"]⟩

/-- Fixture: template `c`, container `cc`, no demand. -/
def tmplC : PodSpec := ⟨[], ["cc"]⟩

/-- Fixture template set `{a, b, c}`. -/
def fixtureTemplates : Templates := [("a", tmplA), ("b", tmplB), ("c", tmplC)]

/-- Fixture with a duplicate-maskable layout: `a` demands 1 card, `b` none. -/
def dupTemplates : Templates :=
  [("a", ⟨[("engine.spyre.ibm.com/spyre-count.c1", "1")], ["c1"]⟩), ("b", ⟨[], ["x1"]⟩)]

/-- Fixture: a lone annotation-free template `z` (demand 0), used to
exercise a singleton layer whose worker emits two errors. -/
def tmplZOnly : Templates := [("z", ⟨[], ["cz"]⟩)]

/-! ## Claim theorems -/

/-- Claim C6: for every pool and every requested count, allocation removes
exactly `count` addresses from the front of the pool and returns them
(the returned segments are a prefix of exactly `count` addresses and the
matching remainder), and it fails with the insufficient-resources error
whenever `count` exceeds the number of addresses remaining in the pool. -/
theorem allocate_front_exact (pool : List String) (count : Int) :
    (0 ≤ count → count.toNat ≤ pool.length →
      allocate pool count = some (pool.take count.toNat, pool.drop count.toNat) ∧
      (pool.take count.toNat).length = count.toNat ∧
      pool.take count.toNat ++ pool.drop count.toNat = pool) ∧
    ((pool.length : Int) < count → allocate pool count = none) := by
  constructor
  · intro h0 hlen
    refine ⟨by rw [allocate, if_pos ⟨h0, hlen⟩], List.length_take_of_le hlen,
      List.take_append_drop _ _⟩
  · intro hlt
    rw [allocate, if_neg]
    rintro ⟨h0, hle⟩
    omega

/-- Witness for C6 at concrete inputs. -/
theorem allocate_front_exact_witness :
    allocate ["x", "y", "z"] 2 = some (["x", "y"], ["z"]) ∧ allocate ["x"] 2 = none := by
  constructor
  · have h := ((allocate_front_exact ["x", "y", "z"] 2).1 (by decide) (by decide)).1
    simpa using h
  · exact (allocate_front_exact ["x"] 2).2 (by decide)

/-- Claim C8: for a container whose (first) inspection reports no configured
health check, the readiness prober returns success immediately at poll
index 0 — zero sleep/poll iterations, the loop is never entered. -/
theorem waitForContainerReadiness_no_healthcheck
    (inspect : Nat → Except String (Option String)) (deadline : Int) (fuel : Nat)
    (h : inspect 0 = .ok none) :
    waitForContainerReadiness inspect deadline (fuel + 1) 0 = some (.ok 0) := by
  rw [waitForContainerReadiness, h]

/-- Witness for C8 at a concrete inspection trace. -/
theorem waitForContainerReadiness_no_healthcheck_witness :
    waitForContainerReadiness (fun _ => .ok none) 300 4 0 = some (.ok 0) :=
  waitForContainerReadiness_no_healthcheck (fun _ => .ok none) 300 3 rfl

/-- Claim C7: the prober never returns the timeout error before the deadline:
whenever it returns `timeout` at poll index `j` (time `2 * j` seconds after
poll start), the deadline has strictly passed (`2 * j > deadline`); and
before the deadline an explicit not-ready status (anything other than the
ready value) leads to another poll rather than a failure — so the only
pre-deadline exits are success or an inspection error. -/
theorem waitForContainerReadiness_timeout_not_early :
    (∀ (fuel : Nat) (inspect : Nat → Except String (Option String)) (deadline : Int) (k j : Nat),
      waitForContainerReadiness inspect deadline fuel k = some (.timeout j) →
      (2 * j : Int) > deadline ∧ k ≤ j) ∧
    (∀ (fuel : Nat) (inspect : Nat → Except String (Option String)) (deadline : Int)
      (k : Nat) (status : String), inspect k = .ok (some status) → status ≠ readyStatus →
      (2 * k : Int) ≤ deadline →
      waitForContainerReadiness inspect deadline (fuel + 1) k =
        waitForContainerReadiness inspect deadline fuel (k + 1)) := by
  constructor
  · intro fuel
    induction fuel with
    | zero =>
      intro inspect deadline k j h
      simp [waitForContainerReadiness] at h
    | succ fuel ih =>
      intro inspect deadline k j h
      rw [waitForContainerReadiness] at h
      rcases hik : inspect k with e | os <;> rw [hik] at h
      · simp at h
      · rcases os with _ | status
        · simp at h
        · simp only at h
          split at h
          · simp at h
          · split at h
            · rename_i hdl
              obtain rfl : j = k := by
                simpa using h.symm
              exact ⟨hdl, le_rfl⟩
            · obtain ⟨h1, h2⟩ := ih inspect deadline (k + 1) j h
              exact ⟨h1, by omega⟩
  · intro fuel inspect deadline k status hik hns hdl
    rw [waitForContainerReadiness, hik]
    simp only [if_neg hns, if_neg (by omega : ¬ ((2 * k : Int) > deadline))]

/-- Witness for C7 at a concrete never-ready trace: with timeout 3s the
prober times out at poll index 2 (time 4s > 3s), and at poll 0 an explicit
`unhealthy` status within the deadline just continues the loop. -/
theorem waitForContainerReadiness_timeout_not_early_witness :
    ((2 * 2 : Int) > 3 ∧ 0 ≤ 2) ∧
    waitForContainerReadiness (fun _ => .ok (some "unhealthy")) 3 6 0 =
      waitForContainerReadiness (fun _ => .ok (some "unhealthy")) 3 5 1 := by
  constructor
  · exact ⟨(waitForContainerReadiness_timeout_not_early.1 5 (fun _ => .ok (some "unhealthy"))
      3 0 2 rfl).1, by omega⟩
  · exact waitForContainerReadiness_timeout_not_early.2 5 (fun _ => .ok (some "unhealthy"))
      3 0 "unhealthy" rfl (by decide) (by decide)

/-- Claim C9: the SMT provisioner is idempotent — if the queried current level
already equals the target it succeeds with zero set operations, and after
any successful invocation a second invocation with the same target succeeds
on the unchanged host with zero set operations. -/
theorem setSMTLevel_idempotent :
    (∀ (setOp : Int → Int → Int) (host t : Int), host = t →
      setSMTLevel setOp host (some t) = .ok (host, 0)) ∧
    (∀ (setOp : Int → Int → Int) (host t host' : Int) (n : Nat),
      setSMTLevel setOp host (some t) = .ok (host', n) →
      setSMTLevel setOp host' (some t) = .ok (host', 0)) := by
  have base : ∀ (setOp : Int → Int → Int) (host t : Int), host = t →
      setSMTLevel setOp host (some t) = .ok (host, 0) := by
    intro setOp host t h
    subst h
    unfold setSMTLevel
    rw [getSMTLevel_querySMTOutput]
    simp
  refine ⟨base, ?_⟩
  intro setOp host t host' n h
  have hfix : host' = t := by
    unfold setSMTLevel at h
    rw [getSMTLevel_querySMTOutput] at h
    by_cases hc : host = t
    · simp only [if_pos hc, Except.ok.injEq, Prod.mk.injEq] at h
      omega
    · simp only [if_neg hc] at h
      rw [getSMTLevel_querySMTOutput] at h
      by_cases hv : setOp t host = t
      · simp only [if_pos hv, Except.ok.injEq, Prod.mk.injEq] at h
        omega
      · simp [if_neg hv] at h
  exact base setOp host' t hfix

/-- Witness for C9: a host at level 2, target 4, with a faithful set
operation — the first call sets and verifies, the second is a no-op. -/
theorem setSMTLevel_idempotent_witness :
    setSMTLevel (fun t _ => t) 2 (some 4) = .ok (4, 1) ∧
    setSMTLevel (fun t _ => t) 4 (some 4) = .ok (4, 0) := by
  constructor
  · rfl
  · exact setSMTLevel_idempotent.2 (fun t _ => t) 2 4 4 1 rfl

/-- Helper: exact characterization of a passing template verification. -/
theorem verify_none_iff (templateNames : List String) (execs : List (List String)) :
    verifyPodTemplateExists templateNames execs = none ↔
      (execs.flatten.length = templateNames.length ∧
        ∀ t ∈ execs.flatten, t ∈ templateNames) := by
  unfold verifyPodTemplateExists
  by_cases hlen : execs.flatten.length = templateNames.length
  · simp only [hlen, ne_eq, not_true_eq_false, if_neg]
    rcases hfind : execs.flatten.find? (fun t => !templateNames.contains t) with _ | t
    · rw [List.find?_eq_none] at hfind
      simp only [true_and]
      constructor
      · intro _ t ht
        have := hfind t ht
        simpa using this
      · intro _
        rfl
    · have := List.find?_some hfind
      have hmem := List.mem_of_find?_eq_some hfind
      simp only [Bool.not_eq_true', ← Bool.not_eq_true] at this
      constructor
      · intro hcon
        exact absurd hcon (by simp)
      · intro ⟨_, hall⟩
        exact absurd (hall t hmem) (by simpa using this)
  · rw [if_pos (by simpa using hlen)]
    constructor
    · intro hcon
      exact absurd hcon (by simp)
    · intro ⟨hl, _⟩
      exact absurd hl hlen

/-- Claim C4, counterexample: the claim says verification fails exactly when
the multiset of referenced identifiers differs from the loaded template set,
i.e. that every duplicate reference is rejected.  But with loaded templates
`{a, b}` and layers `[[a, a]]` — a duplicate reference masking a missing
one, with the multiset `[a, a]` not a permutation of `[a, b]` —
verification succeeds. -/
theorem verifyPodTemplateExists_counterexample :
    verifyPodTemplateExists ["a", "b"] [["a", "a"]] = none ∧
    ¬ ([["a", "a"]].flatten.Perm ["a", "b"]) := by
  refine ⟨rfl, by decide⟩

/-- Claim C4, amended: verification succeeds iff the flattened references have
the same count as the loaded templates and every reference names a loaded
template; consequently a missing, orphan, or count-changing duplicate
reference is rejected, and when the references are duplicate-free,
verification succeeds exactly when they are a permutation of the loaded
template set.  (A duplicate that keeps the count equal while masking a
missing template is accepted — the counterexample above.)  Whenever
verification fails, the failure occurs before any deployment step runs:
`create` returns the verification error with the pool untouched, no
addresses allocated, no pod-create invocation, and zero layers started. -/
theorem verifyPodTemplateExists_characterization (templateNames : List String)
    (execs : List (List String)) :
    (verifyPodTemplateExists templateNames execs = none ↔
      (execs.flatten.length = templateNames.length ∧
        ∀ t ∈ execs.flatten, t ∈ templateNames)) ∧
    (execs.flatten.Nodup →
      (verifyPodTemplateExists templateNames execs = none ↔
        execs.flatten.Perm templateNames)) ∧
    (∀ (render : String → Env → Option String) (deploy : String → Option String)
      (templates : Templates) (pool : List String) (e : String),
      templates.map Prod.fst = templateNames →
      verifyPodTemplateExists templateNames execs = some e →
      createApplication render deploy templates execs pool =
        (.error (.verifyErr e), ⟨pool, [], 0, 0⟩)) := by
  have part1 := verify_none_iff templateNames execs
  refine ⟨part1, fun hnd => part1.trans ?_, ?_⟩
  · constructor
    · intro ⟨hlen, hsub⟩
      obtain ⟨l', hperm, hsl⟩ := (hnd.subperm (fun t ht => hsub t ht))
      have : l' = templateNames := hsl.eq_of_length (by rw [hperm.length_eq, hlen])
      exact this ▸ hperm.symm
    · intro hperm
      exact ⟨hperm.length_eq, fun t ht => hperm.mem_iff.mp ht⟩
  · intro render deploy templates pool e hmap hsome
    unfold createApplication
    rw [hmap, hsome]

/-- Witness for C4's amended theorem: duplicate-free references pass, an
orphan reference is rejected, and the rejection aborts `create` before any
deployment step. -/
theorem verifyPodTemplateExists_characterization_witness :
    verifyPodTemplateExists ["a", "b"] [["b"], ["a"]] = none ∧
    verifyPodTemplateExists ["a", "b"] [["a"], ["c"]] ≠ none ∧
    createApplication (fun _ _ => none) (fun _ => none) dupTemplates [["a"], ["c"]] ["p0"] =
      (.error (.verifyErr
        "value: c specified in podTemplateExecutions under metadata.yml is invalid"),
        ⟨["p0"], [], 0, 0⟩) := by
  refine ⟨?_, ?_, ?_⟩
  · exact ((verifyPodTemplateExists_characterization ["a", "b"] [["b"], ["a"]]).2.1
      (by decide)).mpr (by decide)
  · intro hcon
    have := ((verifyPodTemplateExists_characterization ["a", "b"] [["a"], ["c"]]).1).mp hcon
    exact absurd (this.2 "c" (by decide)) (by decide)
  · exact (verifyPodTemplateExists_characterization ["a", "b"] [["a"], ["c"]]).2.2
      (fun _ _ => none) (fun _ => none) dupTemplates ["p0"] _ rfl rfl

/-- Claim C5, counterexample: the claim says the demand calculation fails on a
matching annotation whose value does not parse as a *non-negative* integer;
but `strconv.Atoi` accepts signed integers, so the matching value `"-1"`
parses to `-1 < 0` and the calculation succeeds (with a negative demand)
instead of failing. -/
theorem fetchSpyreCards_counterexample :
    fetchSpyreCardsFromPodAnnotations isSpyreCardAnnotation
        [("engine.spyre.ibm.com/spyre-count.c1", "-1")] = .ok (-1, [("c1", -1)]) ∧
    isSpyreCardAnnotation "engine.spyre.ibm.com/spyre-count.c1" = some "c1" ∧
    atoi "-1" = some (-1) ∧ (-1 : Int) < 0 := by
  exact ⟨rfl, rfl, rfl, by decide⟩

/-- Claim C5, amended: for every annotation map and matcher, the demand
calculation fails iff some annotation key matching the resource-count
pattern has a value that does not parse as an integer at all (a sign is
accepted, so negative values pass); annotation keys not matching the
pattern are ignored, and a map with no matching key yields zero total
demand, an empty per-container map, and success. -/
theorem fetchSpyreCards_error_characterization (m : String → Option String)
    (annotations : List (String × String)) :
    ((∃ e, fetchSpyreCardsFromPodAnnotations m annotations = .error e) ↔
      ∃ kv ∈ annotations, (∃ c, m kv.1 = some c) ∧ atoi kv.2 = none) ∧
    ((∀ kv ∈ annotations, m kv.1 = none) →
      fetchSpyreCardsFromPodAnnotations m annotations = .ok (0, [])) := by
  have aux : ∀ (annots : List (String × String)) (total : Int) (acc : List (String × Int)),
      (∃ e, fetchSpyreAux m annots total acc = .error e) ↔
        ∃ kv ∈ annots, (∃ c, m kv.1 = some c) ∧ atoi kv.2 = none := by
    intro annots
    induction annots with
    | nil => simp [fetchSpyreAux]
    | cons kv rest ih =>
      intro total acc
      rw [fetchSpyreAux]
      rcases hm : m kv.1 with _ | c
      · rw [ih]
        constructor
        · rintro ⟨kv', hmem, hc⟩
          exact ⟨kv', List.mem_cons_of_mem _ hmem, hc⟩
        · rintro ⟨kv', hmem, hc⟩
          rcases List.mem_cons.mp hmem with rfl | hmem'
          · obtain ⟨⟨c, hcon⟩, _⟩ := hc
            rw [hm] at hcon
            cases hcon
          · exact ⟨kv', hmem', hc⟩
      · rcases ha : atoi kv.2 with _ | v
        · simp only [Except.error.injEq, exists_eq']
          constructor
          · intro _
            exact ⟨kv, List.mem_cons_self _ _, ⟨c, hm⟩, ha⟩
          · intro _
            trivial
        · rw [ih]
          constructor
          · rintro ⟨kv', hmem, hc⟩
            exact ⟨kv', List.mem_cons_of_mem _ hmem, hc⟩
          · rintro ⟨kv', hmem, hc⟩
            rcases List.mem_cons.mp hmem with rfl | hmem'
            · obtain ⟨_, hbad⟩ := hc
              rw [ha] at hbad
              cases hbad
            · exact ⟨kv', hmem', hc⟩
  have aux2 : ∀ (annots : List (String × String)) (total : Int) (acc : List (String × Int)),
      (∀ kv ∈ annots, m kv.1 = none) → fetchSpyreAux m annots total acc = .ok (total, acc) := by
    intro annots
    induction annots with
    | nil => intro total acc _; rfl
    | cons kv rest ih =>
      intro total acc hnone
      rw [fetchSpyreAux, hnone kv (List.mem_cons_self _ _)]
      exact ih total acc (fun kv' h => hnone kv' (List.mem_cons_of_mem _ h))
  exact ⟨aux annotations 0 [], fun h => aux2 annotations 0 [] h⟩

/-- Witness for C5's amended theorem: a map with no matching key succeeds
with zero demand; a matching key with a non-integer value fails. -/
theorem fetchSpyreCards_error_characterization_witness :
    fetchSpyreCardsFromPodAnnotations isSpyreCardAnnotation
        [("app.kubernetes.io/name", "db")] = .ok (0, []) ∧
    (∃ e, fetchSpyreCardsFromPodAnnotations isSpyreCardAnnotation
        [("engine.spyre.ibm.com/spyre-count.c1", "two")] = .error e) := by
  constructor
  · exact (fetchSpyreCards_error_characterization isSpyreCardAnnotation _).2
      (by intro kv h; simp at h; rw [h]; rfl)
  · exact (fetchSpyreCards_error_characterization isSpyreCardAnnotation _).1.mpr
      ⟨("engine.spyre.ibm.com/spyre-count.c1", "two"), by decide, ⟨"c1", rfl⟩, rfl⟩

/-- Claim C2: when the total computed card demand exceeds the discovered free
pool, `create` fails with the insufficient-resources error before executing
any layer: the pool is untouched, the assignment log is empty, the
runtime's pod-create operation is never invoked, and zero layers start. -/
theorem createApplication_insufficient_fail_fast
    (render : String → Env → Option String) (deploy : String → Option String)
    (templates : Templates) (execs : List (List String)) (pciAddresses : List String)
    (req : Int)
    (hverify : verifyPodTemplateExists (templates.map Prod.fst) execs = none)
    (hreq : calculateReqSpyreCards templates = .ok req)
    (hover : (pciAddresses.length : Int) < req) :
    createApplication render deploy templates execs pciAddresses =
      (.error (.insufficientResources req), ⟨pciAddresses, [], 0, 0⟩) := by
  unfold createApplication validateSpyreCardRequirements
  rw [hverify, hreq]
  dsimp only
  rw [if_pos hover]

/-- Witness for C2: the spec's §8 scenario with only 2 free addresses —
demand 3 exceeds supply, the run fails fast with nothing allocated. -/
theorem createApplication_insufficient_fail_fast_witness :
    createApplication (fun _ _ => none) (fun _ => none) fixtureTemplates
      [["a"], ["b", "c"]] ["p0", "p1"] =
      (.error (.insufficientResources 3), ⟨["p0", "p1"], [], 0, 0⟩) :=
  createApplication_insufficient_fail_fast (fun _ _ => none) (fun _ => none)
    fixtureTemplates [["a"], ["b", "c"]] ["p0", "p1"] 3 rfl rfl (by decide)

/-- Helper: a successfully executed prefix of layers lets execution continue
with the remaining layers from the reached state. -/
theorem execFrom_append (render : String → Env → Option String)
    (deploy : String → Option String) (templates : Templates) :
    ∀ (pre rest : List (List String)) (i : Nat) (st : AllocState) (d : Nat) (stats : RunStats),
    execFrom render deploy templates pre i st d = (.ok (), stats) →
    execFrom render deploy templates (pre ++ rest) i st d =
      execFrom render deploy templates rest stats.layersStarted
        ⟨stats.pool, stats.log⟩ stats.deploys := by
  intro pre
  induction pre with
  | nil =>
    intro rest i st d stats h
    rw [execFrom] at h
    obtain rfl : stats = ⟨st.pool, st.log, d, i⟩ := (congrArg Prod.snd h).symm
    rfl
  | cons layer pre ih =>
    intro rest i st d stats h
    rw [List.cons_append, execFrom]
    rw [execFrom] at h
    by_cases he : (layerErrors (runLayer render deploy templates st layer)).isEmpty = true
    · rw [if_pos he] at h ⊢
      exact ih rest (i + 1) _ _ stats h
    · rw [if_neg he] at h
      exact absurd (congrArg Prod.fst h) (by simp)

/-- Helper: a successful run of `n` layers starting at index `i` reports
`i + n` layers started. -/
theorem execFrom_ok_layersStarted (render : String → Env → Option String)
    (deploy : String → Option String) (templates : Templates) :
    ∀ (layers : List (List String)) (i : Nat) (st : AllocState) (d : Nat) (stats : RunStats),
    execFrom render deploy templates layers i st d = (.ok (), stats) →
    stats.layersStarted = i + layers.length := by
  intro layers
  induction layers with
  | nil =>
    intro i st d stats h
    rw [execFrom] at h
    obtain rfl : stats = ⟨st.pool, st.log, d, i⟩ := (congrArg Prod.snd h).symm
    simp
  | cons layer rest ih =>
    intro i st d stats h
    rw [execFrom] at h
    by_cases he : (layerErrors (runLayer render deploy templates st layer)).isEmpty = true
    · rw [if_pos he] at h
      rw [ih (i + 1) _ _ stats h, List.length_cons]
      omega
    · rw [if_neg he] at h
      exact absurd (congrArg Prod.fst h) (by simp)

/-- Helper: sends that fit the free slots all get delivered, none blocks. -/
theorem sendAll_enough : ∀ (es : List String) (slots : Nat), es.length ≤ slots →
    sendAll slots es = ⟨slots - es.length, es, false⟩ := by
  intro es
  induction es with
  | nil =>
    intro slots _
    cases slots <;> rfl
  | cons e rest ih =>
    intro slots h
    cases slots with
    | zero => simp at h
    | succ s =>
      rw [sendAll, ih s (by simpa using h)]
      have hs : s + 1 - (e :: rest).length = s - rest.length := by
        simp only [List.length_cons]
        omega
      rw [hs]

/-- Helper: a worker whose errors fit the free channel slots behaves exactly
like the lossless worker — nothing blocks, every error is delivered, and
the pod-create call is reached. -/
theorem processTemplateCh_bridge (render : String → Env → Option String)
    (deploy : String → Option String) (templates : Templates) (name : String)
    (st : AllocState) (slots : Nat)
    (hcap : (processTemplate render deploy templates name st).errs.length ≤ slots) :
    processTemplateCh render deploy templates name st slots =
      ⟨(processTemplate render deploy templates name st).errs, false, true,
        (processTemplate render deploy templates name st).st,
        slots - (processTemplate render deploy templates name st).errs.length⟩ := by
  unfold processTemplate at hcap
  unfold processTemplateCh processTemplate
  revert hcap
  rcases returnEnvParamsForPod templates name st with ⟨env, envErrs, st'⟩
  intro hcap
  dsimp only at hcap ⊢
  set RE := (match render name env with | some e => [e] | none => ([] : List String)) with hRE
  set DE := (match deploy name with | some e => [e] | none => ([] : List String)) with hDE
  rw [List.length_append, List.length_append] at hcap
  rw [sendAll_enough envErrs slots (by omega)]
  dsimp only
  rw [sendAll_enough RE (slots - envErrs.length) (by omega)]
  dsimp only
  rw [sendAll_enough DE (slots - envErrs.length - RE.length) (by omega)]
  rw [if_neg (by simp), if_neg (by simp)]
  simp only [ChWorkerOut.mk.injEq, List.length_append, true_and, and_true]
  omega

/-- Helper: the lossless worker always reaches the pod-create call. -/
theorem processTemplate_deployInvoked (render : String → Env → Option String)
    (deploy : String → Option String) (templates : Templates) (name : String)
    (st : AllocState) :
    (processTemplate render deploy templates name st).deployInvoked = true := by
  unfold processTemplate
  rcases returnEnvParamsForPod templates name st with ⟨env, errs2, st2⟩
  rfl

/-- Helper: a layer whose total error count fits the channel capacity
behaves exactly like the lossless layer. -/
theorem runLayerCh_bridge (render : String → Env → Option String)
    (deploy : String → Option String) (templates : Templates) :
    ∀ (layer : List String) (st : AllocState) (slots : Nat),
    (layerErrors (runLayer render deploy templates st layer)).length ≤ slots →
    runLayerCh render deploy templates st slots layer =
      ⟨(runLayer render deploy templates st layer).results, false,
        (runLayer render deploy templates st layer).deploys,
        (runLayer render deploy templates st layer).st,
        slots - (layerErrors (runLayer render deploy templates st layer)).length⟩ := by
  intro layer
  induction layer with
  | nil =>
    intro st slots _
    simp [runLayerCh, runLayer, layerErrors]
  | cons name rest ih =>
    intro st slots hcap
    have hsplit : (layerErrors (runLayer render deploy templates st (name :: rest))).length =
        (processTemplate render deploy templates name st).errs.length +
          (layerErrors (runLayer render deploy templates
            (processTemplate render deploy templates name st).st rest)).length := by
      simp [runLayer, layerErrors, List.flatMap_cons]
    rw [hsplit] at hcap
    rw [runLayerCh, processTemplateCh_bridge render deploy templates name st slots (by omega)]
    dsimp only
    rw [ih (processTemplate render deploy templates name st).st
      (slots - (processTemplate render deploy templates name st).errs.length) (by omega)]
    dsimp only
    rw [hsplit, runLayer]
    dsimp only
    rw [processTemplate_deployInvoked]
    simp only [ChLayerOut.mk.injEq, Bool.or_self, true_and, and_true]
    omega

/-- Helper: a run that succeeds in the lossless model also succeeds — with
the same statistics — under channel semantics, because a successful layer
sends no errors at all. -/
theorem execFromCh_of_ok (render : String → Env → Option String)
    (deploy : String → Option String) (templates : Templates) :
    ∀ (layers : List (List String)) (i : Nat) (st : AllocState) (d : Nat) (stats : RunStats),
    execFrom render deploy templates layers i st d = (.ok (), stats) →
    execFromCh render deploy templates layers i st d = some (.ok (), stats) := by
  intro layers
  induction layers with
  | nil =>
    intro i st d stats h
    rw [execFrom] at h
    obtain rfl : stats = ⟨st.pool, st.log, d, i⟩ := (congrArg Prod.snd h).symm
    rfl
  | cons layer rest ih =>
    intro i st d stats h
    rw [execFrom] at h
    by_cases he : (layerErrors (runLayer render deploy templates st layer)).isEmpty = true
    · rw [if_pos he] at h
      have hnil : layerErrors (runLayer render deploy templates st layer) = [] :=
        List.isEmpty_iff.mp he
      rw [execFromCh, runLayerCh_bridge render deploy templates layer st layer.length
        (by rw [hnil]; simp)]
      dsimp only
      have hch : chLayerErrors
          ⟨(runLayer render deploy templates st layer).results, false,
            (runLayer render deploy templates st layer).deploys,
            (runLayer render deploy templates st layer).st,
            layer.length - (layerErrors (runLayer render deploy templates st layer)).length⟩ =
          layerErrors (runLayer render deploy templates st layer) := rfl
      rw [hch, hnil]
      exact ih (i + 1) _ _ stats h
    · rw [if_neg he] at h
      exact absurd (congrArg Prod.fst h) (by simp)

/-- Helper: a successfully executed prefix of layers lets channel-semantics
execution continue with the remaining layers from the reached state. -/
theorem execFromCh_append (render : String → Env → Option String)
    (deploy : String → Option String) (templates : Templates) :
    ∀ (pre rest : List (List String)) (i : Nat) (st : AllocState) (d : Nat) (stats : RunStats),
    execFromCh render deploy templates pre i st d = some (.ok (), stats) →
    execFromCh render deploy templates (pre ++ rest) i st d =
      execFromCh render deploy templates rest stats.layersStarted
        ⟨stats.pool, stats.log⟩ stats.deploys := by
  intro pre
  induction pre with
  | nil =>
    intro rest i st d stats h
    rw [execFromCh] at h
    obtain rfl : stats = ⟨st.pool, st.log, d, i⟩ :=
      (congrArg Prod.snd (Option.some.inj h)).symm
    rfl
  | cons layer pre ih =>
    intro rest i st d stats h
    rw [List.cons_append, execFromCh]
    rw [execFromCh] at h
    by_cases hb : (runLayerCh render deploy templates st layer.length layer).blockedAny = true
    · rw [if_pos hb] at h
      cases h
    · rw [if_neg hb] at h ⊢
      by_cases he : (chLayerErrors
          (runLayerCh render deploy templates st layer.length layer)).isEmpty = true
      · rw [if_pos he] at h ⊢
        exact ih rest (i + 1) _ _ stats h
      · rw [if_neg he] at h
        exact absurd (congrArg Prod.fst (Option.some.inj h)) (by simp)

/-- Claim C1, counterexample: the claim says that whenever a worker of a
layer fails, the orchestrator returns a combined error for that layer.  But
the error channel holds only `len(layer)` errors and nothing receives from
it before the fan-in, so a singleton layer whose worker fails both
rendering and pod creation makes two sends against capacity one: the second
send blocks, `wg.Wait` never completes, and the orchestrator never returns
anything at all. -/
theorem executePodTemplates_deadlock_counterexample :
    layerErrors (runLayer (fun _ _ => some "failed to render")
        (fun _ => some "failed pod creation") tmplZOnly ⟨["p0"], []⟩ ["z"]) ≠ [] ∧
    executePodTemplatesCh (fun _ _ => some "failed to render")
        (fun _ => some "failed pod creation") tmplZOnly [["z"]] ["p0"] = none := by
  exact ⟨by decide, rfl⟩

/-- Claim C1, amended: if every layer before layer `k` succeeds and one or
more workers of layer `k` (= the `pre.length + 1`-st layer) fail, then —
provided the layer's total error count does not exceed its worker count,
i.e. the error channel's capacity, so that no send blocks — the
orchestrator returns a single combined error tagged with layer number `k`
that contains an error entry for every failing worker of that layer (not
only the first), and no later layer is ever started: the run's statistics
are exactly those of the prefix plus layer `k`, independent of `rest`.
(When the errors exceed the capacity, a blocked send keeps the orchestrator
from returning at all — the counterexample above.) -/
theorem executePodTemplates_first_failing_layer
    (render : String → Env → Option String) (deploy : String → Option String)
    (templates : Templates) (pre : List (List String)) (layerK : List String)
    (rest : List (List String)) (pool : List String) (statsPre : RunStats)
    (hpre : execFrom render deploy templates pre 0 ⟨pool, []⟩ 0 = (.ok (), statsPre))
    (hfail : layerErrors
      (runLayer render deploy templates ⟨statsPre.pool, statsPre.log⟩ layerK) ≠ [])
    (hcap : (layerErrors
      (runLayer render deploy templates ⟨statsPre.pool, statsPre.log⟩ layerK)).length ≤
      layerK.length) :
    executePodTemplatesCh render deploy templates (pre ++ layerK :: rest) pool =
      some (.error (pre.length + 1,
          layerErrors (runLayer render deploy templates ⟨statsPre.pool, statsPre.log⟩ layerK)),
        ⟨(runLayer render deploy templates ⟨statsPre.pool, statsPre.log⟩ layerK).st.pool,
         (runLayer render deploy templates ⟨statsPre.pool, statsPre.log⟩ layerK).st.log,
         statsPre.deploys +
           (runLayer render deploy templates ⟨statsPre.pool, statsPre.log⟩ layerK).deploys,
         pre.length + 1⟩) ∧
    (∀ p ∈ (runLayer render deploy templates ⟨statsPre.pool, statsPre.log⟩ layerK).results,
      ∀ e ∈ p.2, (p.1, e) ∈
        layerErrors (runLayer render deploy templates ⟨statsPre.pool, statsPre.log⟩ layerK)) := by
  have hstart : statsPre.layersStarted = pre.length := by
    have := execFrom_ok_layersStarted render deploy templates pre 0 ⟨pool, []⟩ 0 statsPre hpre
    omega
  constructor
  · rw [executePodTemplatesCh, execFromCh_append render deploy templates pre (layerK :: rest) 0
      ⟨pool, []⟩ 0 statsPre
      (execFromCh_of_ok render deploy templates pre 0 ⟨pool, []⟩ 0 statsPre hpre),
      hstart, execFromCh,
      runLayerCh_bridge render deploy templates layerK ⟨statsPre.pool, statsPre.log⟩
        layerK.length hcap]
    dsimp only
    rw [if_neg (by simp), if_neg (by simpa using hfail)]
    rfl
  · intro p hp e he
    simp only [layerErrors, List.mem_flatMap]
    exact ⟨p, hp, List.mem_map_of_mem _ he⟩

/-- Witness for C1's amended theorem: layers `[[a], [b, c]]` over 3 free
addresses where `b`'s pod creation fails — one error against capacity 2, so
nothing blocks; layer 1 succeeds, the error is tagged layer 2 with `b`'s
failure, and `c`'s pod was still created (3 pod creations total). -/
theorem executePodTemplates_first_failing_layer_witness :
    executePodTemplatesCh (fun _ _ => none)
        (fun n => if n = "b" then some "failed pod creation" else none)
        fixtureTemplates [["a"], ["b", "c"]] ["p0", "p1", "p2"] =
      some (.error (2, [("b", "failed pod creation")]),
        ⟨[], [("ca", ["p0"]), ("cb", ["p1", "p2"])], 3, 2⟩) := by
  have h := executePodTemplates_first_failing_layer (fun _ _ => none)
    (fun n => if n = "b" then some "failed pod creation" else none)
    fixtureTemplates [["a"]] ["b", "c"] [] ["p0", "p1", "p2"]
    ⟨["p1", "p2"], [("ca", ["p0"])], 1, 1⟩ rfl (by decide) (by decide)
  exact h.1.trans (by rfl)

/-- Claim C10, counterexample: the claim says a worker that fails an early
step still executes its remaining steps and the failure takes effect at the
layer fan-in.  But sends on the layer's error channel can block: in a
singleton layer (capacity 1) whose worker fails both rendering and pod
creation, the render error fills the channel, the deploy-error send blocks
the worker, the deploy error is never delivered, and the fan-in barrier —
hence the whole orchestrator — never completes. -/
theorem worker_blocked_on_full_channel_counterexample :
    (processTemplate (fun _ _ => some "failed to render")
        (fun _ => some "failed pod creation") tmplZOnly "z" ⟨["p0"], []⟩).errs =
      ["failed to render", "failed pod creation"] ∧
    (processTemplateCh (fun _ _ => some "failed to render")
        (fun _ => some "failed pod creation") tmplZOnly "z" ⟨["p0"], []⟩ 1).blocked = true ∧
    (processTemplateCh (fun _ _ => some "failed to render")
        (fun _ => some "failed pod creation") tmplZOnly "z" ⟨["p0"], []⟩ 1).sent =
      ["failed to render"] ∧
    execFromCh (fun _ _ => some "failed to render") (fun _ => some "failed pod creation")
        tmplZOnly [["z"]] 0 ⟨["p0"], []⟩ 0 = none := by
  exact ⟨rfl, rfl, rfl, rfl⟩

/-- Claim C10, amended: when a worker's env-parameter computation or its
template rendering fails and the worker's errors fit the layer's channel
capacity (here a singleton layer, capacity 1, exactly one failing step), the
worker does not stop at the failure: it sends the error, still executes its
remaining steps — including submitting the (possibly incompletely
parameterized) manifest to the runtime's pod-create operation — and the
failure takes effect only at the layer fan-in, whose aggregated error
contains it while the pod-create count includes the failed worker.  (When
the layer's errors exceed the channel capacity, the blocked send halts the
worker and the fan-in never happens — the counterexample above.) -/
theorem worker_continues_within_capacity
    (render : String → Env → Option String) (deploy : String → Option String)
    (templates : Templates) (name : String) (st : AllocState) (e : String)
    (hstep : e ∈ (returnEnvParamsForPod templates name st).2.1 ∨
      render name (returnEnvParamsForPod templates name st).1 = some e)
    (hcap : (processTemplate render deploy templates name st).errs.length ≤ 1) :
    (processTemplateCh render deploy templates name st 1).deployInvoked = true ∧
    (processTemplateCh render deploy templates name st 1).blocked = false ∧
    e ∈ (processTemplateCh render deploy templates name st 1).sent ∧
    (∀ (i deploys : Nat) (rest : List (List String)),
      ∃ errs stats,
        execFromCh render deploy templates ([name] :: rest) i ⟨st.pool, st.log⟩ deploys =
          some (.error (i + 1, errs), stats) ∧ (name, e) ∈ errs ∧
        stats.deploys = deploys + 1) := by
  have hbr := processTemplateCh_bridge render deploy templates name st 1 hcap
  have hsplit : (processTemplate render deploy templates name st).errs =
      (returnEnvParamsForPod templates name st).2.1 ++
        ((match render name (returnEnvParamsForPod templates name st).1 with
          | some e' => [e'] | none => []) ++
         (match deploy name with | some e' => [e'] | none => [])) := by
    unfold processTemplate
    rcases returnEnvParamsForPod templates name st with ⟨env, errs2, st2⟩
    dsimp only
    rw [List.append_assoc]
  have hmem : e ∈ (processTemplate render deploy templates name st).errs := by
    rcases hstep with henv | hrend
    · rw [hsplit]
      exact List.mem_append_left _ henv
    · rw [hsplit, hrend]
      exact List.mem_append_right _ (List.mem_append_left _ (List.mem_cons_self e []))
  refine ⟨by rw [hbr], by rw [hbr], by rw [hbr]; exact hmem, ?_⟩
  intro i deploys rest
  have hlay : layerErrors (runLayer render deploy templates st [name]) =
      ((processTemplate render deploy templates name st).errs).map (fun e' => (name, e')) := by
    simp [runLayer, layerErrors]
  have hlcap : (layerErrors (runLayer render deploy templates st [name])).length ≤
      ([name] : List String).length := by
    rw [hlay, List.length_map]
    simpa using hcap
  have hst : (⟨st.pool, st.log⟩ : AllocState) = st := rfl
  rw [execFromCh, hst,
    runLayerCh_bridge render deploy templates [name] st ([name] : List String).length hlcap]
  dsimp only
  rw [if_neg (by simp),
    if_neg (by
      show ¬ (layerErrors (runLayer render deploy templates st [name])).isEmpty = true
      rw [hlay]
      simpa using List.ne_nil_of_mem (List.mem_map_of_mem (fun e' => (name, e')) hmem))]
  refine ⟨_, _, rfl, ?_, ?_⟩
  · show (name, e) ∈ layerErrors (runLayer render deploy templates st [name])
    rw [hlay]
    exact List.mem_map_of_mem _ hmem
  · show deploys + (runLayer render deploy templates st [name]).deploys = deploys + 1
    simp [runLayer, processTemplate_deployInvoked]

/-- Witness for C10's amended theorem: template `c`'s rendering fails in a
singleton layer — the error is sent, the pod is still created, and the
layer returns the aggregated error naming `c`. -/
theorem worker_continues_within_capacity_witness :
    (processTemplateCh (fun n _ => if n = "c" then some "failed to render" else none)
        (fun _ => none) fixtureTemplates "c" ⟨["p0"], []⟩ 1).deployInvoked = true ∧
    (processTemplateCh (fun n _ => if n = "c" then some "failed to render" else none)
        (fun _ => none) fixtureTemplates "c" ⟨["p0"], []⟩ 1).blocked = false ∧
    "failed to render" ∈ (processTemplateCh (fun n _ => if n = "c" then some "failed to render" else none)
        (fun _ => none) fixtureTemplates "c" ⟨["p0"], []⟩ 1).sent ∧
    (∃ errs stats,
      execFromCh (fun n _ => if n = "c" then some "failed to render" else none)
          (fun _ => none) fixtureTemplates [["c"]] 0 ⟨["p0"], []⟩ 0 =
        some (.error (1, errs), stats) ∧ ("c", "failed to render") ∈ errs ∧
      stats.deploys = 1) := by
  have h := worker_continues_within_capacity
    (fun n _ => if n = "c" then some "failed to render" else none) (fun _ => none)
    fixtureTemplates "c" ⟨["p0"], []⟩ "failed to render" (Or.inr rfl) (by decide)
  exact ⟨h.1, h.2.1, h.2.2.1, by simpa using h.2.2.2 0 0 []⟩

/-! ### Conservation lemmas for the allocation state -/

/-- Container names matched by the annotation pattern, in annotation order. -/
def matchedNames (m : String → Option String) (annots : List (String × String)) : List String :=
  annots.filterMap (fun kv => m kv.1)

/-- Matched (container, parsed count) pairs, in annotation order. -/
def matchedPairs (m : String → Option String) (annots : List (String × String)) :
    List (String × Int) :=
  annots.filterMap (fun kv =>
    match m kv.1, atoi kv.2 with
    | some c, some v => some (c, v)
    | _, _ => none)

theorem logAddrs_append (l₁ l₂ : List (String × List String)) :
    logAddrs (l₁ ++ l₂) = logAddrs l₁ ++ logAddrs l₂ := by
  simp [logAddrs]

theorem allocate_some {pool : List String} {count : Int} {a rem : List String}
    (h : allocate pool count = some (a, rem)) :
    a ++ rem = pool ∧ (a.length : Int) = count := by
  unfold allocate at h
  split at h
  case isTrue hc =>
    obtain ⟨ha, hrem⟩ : pool.take count.toNat = a ∧ pool.drop count.toNat = rem := by
      simpa using h
    subst ha hrem
    exact ⟨List.take_append_drop _ _, by rw [List.length_take_of_le hc.2]; omega⟩
  case isFalse => cases h

theorem assocReplace_not_mem :
    ∀ {acc : List (String × Int)} {c : String} {v : Int}, c ∉ acc.map Prod.fst →
    assocReplace acc c v = acc ++ [(c, v)] := by
  intro acc
  induction acc with
  | nil => intros; rfl
  | cons p rest ih =>
    intro c v h
    simp only [List.map_cons, List.mem_cons] at h
    push_neg at h
    rw [assocReplace, if_neg (fun hc => h.1 hc.symm), ih h.2, List.cons_append]

/-- Every step of the critical section preserves the multiset of addresses
(log plus pool), only appends to the log, and only appends to the errors. -/
theorem allocateForContainers_inv :
    ∀ (cm : List (String × Int)) (st : AllocState) (env : Env) (errs : List String),
    logAddrs (allocateForContainers st cm env errs).2.2.log ++
        (allocateForContainers st cm env errs).2.2.pool =
      logAddrs st.log ++ st.pool ∧
    (∃ t, (allocateForContainers st cm env errs).2.2.log = st.log ++ t) ∧
    (∃ t, (allocateForContainers st cm env errs).2.1 = errs ++ t) := by
  intro cm
  induction cm with
  | nil =>
    intro st env errs
    exact ⟨rfl, ⟨[], by simp [allocateForContainers]⟩, ⟨[], by simp [allocateForContainers]⟩⟩
  | cons p rest ih =>
    intro st env errs
    obtain ⟨c, n⟩ := p
    rw [allocateForContainers]
    by_cases hn : n ≠ 0
    · rw [if_pos hn]
      rcases ha : allocate st.pool n with _ | ⟨a, rem⟩
      · obtain ⟨h1, h2, t, h3⟩ := ih st env
          (errs ++ ["insufficient spyre cards for container " ++ c])
        exact ⟨h1, h2, ⟨_, by rw [h3, List.append_assoc]⟩⟩
      · obtain ⟨happ, -⟩ := allocate_some ha
        obtain ⟨h1, ⟨t2, h2⟩, h3⟩ := ih ⟨rem, st.log ++ [(c, a)]⟩
          (allocateForContainers.assocEnvSet env c [(pciAddressKey, joinAddrs a)]) errs
        refine ⟨?_, ⟨_, by rw [h2, List.append_assoc]⟩, h3⟩
        rw [h1]
        simp only [logAddrs_append]
        simp only [logAddrs, List.flatMap_cons, List.flatMap_nil, List.append_nil,
          List.append_assoc, happ]
    · rw [if_neg hn]
      exact ih st env errs

/-- If the critical section reports no error, it hands out exactly the sum
of the requested per-container counts. -/
theorem allocateForContainers_success :
    ∀ (cm : List (String × Int)) (st : AllocState) (env : Env) (errs : List String),
    (allocateForContainers st cm env errs).2.1 = errs →
    ((logAddrs (allocateForContainers st cm env errs).2.2.log).length : Int) =
      (logAddrs st.log).length + (cm.map (fun p => p.2)).sum := by
  intro cm
  induction cm with
  | nil =>
    intro st env errs _
    simp [allocateForContainers]
  | cons p rest ih =>
    intro st env errs hok
    obtain ⟨c, n⟩ := p
    rw [allocateForContainers] at hok ⊢
    by_cases hn : n ≠ 0
    · rw [if_pos hn] at hok ⊢
      rcases ha : allocate st.pool n with _ | ⟨a, rem⟩
      · rw [ha] at hok
        obtain ⟨-, -, t, hpre⟩ := allocateForContainers_inv rest st env
          (errs ++ ["insufficient spyre cards for container " ++ c])
        rw [hpre] at hok
        have := congrArg List.length hok
        simp at this
      · rw [ha] at hok
        obtain ⟨-, hlen⟩ := allocate_some ha
        rw [ih _ _ _ hok]
        simp only [logAddrs_append]
        simp only [logAddrs, List.flatMap_cons, List.flatMap_nil, List.append_nil,
          List.map_cons, List.sum_cons, List.length_append]
        push_cast
        rw [← hlen]
        ring
    · rw [if_neg hn] at hok ⊢
      rw [ih _ _ _ hok]
      push_neg at hn
      simp [hn]

/-- Key-distinctness transfer: on annotations whose matched container names
are distinct, a successful demand calculation returns a map that is exactly
the matched pairs, and a total that is their sum. -/
theorem fetchSpyreAux_ok_characterization (m : String → Option String) :
    ∀ (annots : List (String × String)) (total : Int) (acc : List (String × Int))
      {n : Int} {cm : List (String × Int)},
    (matchedNames m annots).Nodup →
    (∀ c ∈ acc.map Prod.fst, c ∉ matchedNames m annots) →
    fetchSpyreAux m annots total acc = .ok (n, cm) →
    cm = acc ++ matchedPairs m annots ∧
      n = total + ((matchedPairs m annots).map (fun p => p.2)).sum := by
  intro annots
  induction annots with
  | nil =>
    intro total acc n cm _ _ h
    obtain ⟨rfl, rfl⟩ : total = n ∧ acc = cm := by
      rw [fetchSpyreAux] at h
      simpa using h
    simp [matchedPairs]
  | cons kv rest ih =>
    intro total acc n cm hnd hdisj h
    rw [fetchSpyreAux] at h
    rcases hmk : m kv.1 with _ | c
    · rw [hmk] at h
      have hmn : matchedNames m (kv :: rest) = matchedNames m rest := by
        simp [matchedNames, List.filterMap_cons, hmk]
      have hpairs : matchedPairs m (kv :: rest) = matchedPairs m rest := by
        simp [matchedPairs, List.filterMap_cons, hmk]
      rw [hpairs]
      rw [hmn] at hnd
      exact ih total acc hnd (fun c hc => hmn ▸ hdisj c hc) h
    · rw [hmk] at h
      dsimp only at h
      have hmn : matchedNames m (kv :: rest) = c :: matchedNames m rest := by
        simp [matchedNames, List.filterMap_cons, hmk]
      rcases hat : atoi kv.2 with _ | v
      · rw [hat] at h
        cases h
      · rw [hat] at h
        dsimp only at h
        have hpairs : matchedPairs m (kv :: rest) = (c, v) :: matchedPairs m rest := by
          simp [matchedPairs, List.filterMap_cons, hmk, hat]
        have hnd' : (c :: matchedNames m rest).Nodup := hmn ▸ hnd
        have hcnotin : c ∉ matchedNames m rest := (List.nodup_cons.mp hnd').1
        have hrepl : assocReplace acc c v = acc ++ [(c, v)] :=
          assocReplace_not_mem (fun hc =>
            (hdisj c hc) (hmn ▸ List.mem_cons_self c _))
        rw [hrepl] at h
        obtain ⟨hcm, hn⟩ := ih (total + v) (acc ++ [(c, v)]) (List.nodup_cons.mp hnd').2
          (by
            intro c' hc'
            simp only [List.map_append, List.map_cons, List.map_nil, List.mem_append,
              List.mem_singleton] at hc'
            rcases hc' with hc' | rfl
            · intro hcon
              refine (hdisj c' hc') ?_
              rw [hmn]
              exact List.mem_cons_of_mem c hcon
            · exact hcnotin) h
        rw [hpairs]
        constructor
        · rw [hcm, List.append_assoc]
          rfl
        · rw [hn]
          simp only [List.map_cons, List.sum_cons]
          ring

/-- Success of the demand calculation on duplicate-free matched names: the
total equals the sum of the per-container map values. -/
theorem fetch_total_eq_sum {annots : List (String × String)} {n : Int}
    {cm : List (String × Int)}
    (hnd : (matchedNames isSpyreCardAnnotation annots).Nodup)
    (h : fetchSpyreCardsFromPodAnnotations isSpyreCardAnnotation annots = .ok (n, cm)) :
    (cm.map (fun p => p.2)).sum = n := by
  obtain ⟨hcm, hn⟩ := fetchSpyreAux_ok_characterization isSpyreCardAnnotation annots 0 []
    hnd (by simp) h
  rw [hcm, hn]
  simp

theorem mem_of_lookup_eq_some :
    ∀ {l : Templates} {k : String} {v : PodSpec}, l.lookup k = some v → (k, v) ∈ l := by
  intro l
  induction l with
  | nil => intro k v h; cases h
  | cons p rest ih =>
    intro k v h
    rw [List.lookup] at h
    cases hk : (k == p.1) <;> rw [hk] at h <;> dsimp only at h
    · exact List.mem_cons_of_mem _ (ih h)
    · obtain rfl := Option.some.inj h
      obtain rfl : k = p.1 := by simpa using hk
      exact List.mem_cons_self _ _

/-- Equation: env step when the template file cannot be loaded. -/
theorem returnEnvParamsForPod_eq_none {templates : Templates} {name : String}
    {st : AllocState} (hl : templates.lookup name = none) :
    returnEnvParamsForPod templates name st =
      ([], ["failed to load pod Template: " ++ name], st) := by
  unfold returnEnvParamsForPod
  rw [hl]

/-- Equation: env step when the annotations fail to parse. -/
theorem returnEnvParamsForPod_eq_err {templates : Templates} {name : String}
    {st : AllocState} {spec : PodSpec} {e : String}
    (hl : templates.lookup name = some spec)
    (hf : fetchSpyreCardsFromPodAnnotations isSpyreCardAnnotation spec.annotations = .error e) :
    returnEnvParamsForPod templates name st =
      (spec.containerNames.map (fun c => (c, [])), [e], st) := by
  unfold returnEnvParamsForPod
  rw [hl]
  dsimp only
  rw [hf]

/-- Equation: env step when the annotations parse. -/
theorem returnEnvParamsForPod_eq_ok {templates : Templates} {name : String}
    {st : AllocState} {spec : PodSpec} {n : Int} {cm : List (String × Int)}
    (hl : templates.lookup name = some spec)
    (hf : fetchSpyreCardsFromPodAnnotations isSpyreCardAnnotation spec.annotations =
      .ok (n, cm)) :
    returnEnvParamsForPod templates name st =
      (if n = 0 then (spec.containerNames.map (fun c => (c, [])), [], st)
       else allocateForContainers st cm (spec.containerNames.map (fun c => (c, []))) []) := by
  unfold returnEnvParamsForPod
  rw [hl]
  dsimp only
  rw [hf]

/-- Equation: the per-template demand of a loadable, parseable template. -/
theorem demandOf_eq_ok {templates : Templates} {name : String} {spec : PodSpec}
    {n : Int} {cm : List (String × Int)}
    (hl : templates.lookup name = some spec)
    (hf : fetchSpyreCardsFromPodAnnotations isSpyreCardAnnotation spec.annotations =
      .ok (n, cm)) :
    demandOf templates name = n := by
  unfold demandOf
  rw [hl]
  dsimp only
  rw [hf]

/-- The env step preserves the addresses (log plus pool) and only appends
to the log. -/
theorem returnEnvParamsForPod_inv (templates : Templates) (name : String) (st : AllocState) :
    logAddrs (returnEnvParamsForPod templates name st).2.2.log ++
        (returnEnvParamsForPod templates name st).2.2.pool =
      logAddrs st.log ++ st.pool ∧
    (∃ t, (returnEnvParamsForPod templates name st).2.2.log = st.log ++ t) := by
  unfold returnEnvParamsForPod
  rcases templates.lookup name with _ | spec
  · exact ⟨rfl, ⟨[], by simp⟩⟩
  · dsimp only
    rcases fetchSpyreCardsFromPodAnnotations isSpyreCardAnnotation spec.annotations with e | ⟨n, cm⟩
    · exact ⟨rfl, ⟨[], by simp⟩⟩
    · dsimp only
      by_cases hz : n = 0
      · rw [if_pos hz]
        exact ⟨rfl, ⟨[], by simp⟩⟩
      · rw [if_neg hz]
        obtain ⟨h1, h2, -⟩ := allocateForContainers_inv cm st
          (spec.containerNames.map (fun c => (c, []))) []
        exact ⟨h1, h2⟩

/-- A successful env step hands out exactly the template's computed demand. -/
theorem returnEnvParamsForPod_success (templates : Templates) (name : String) (st : AllocState)
    (hinj : ∀ p ∈ templates, (matchedNames isSpyreCardAnnotation p.2.annotations).Nodup)
    (h : (returnEnvParamsForPod templates name st).2.1 = []) :
    ((logAddrs (returnEnvParamsForPod templates name st).2.2.log).length : Int) =
      (logAddrs st.log).length + demandOf templates name := by
  rcases hl : templates.lookup name with _ | spec
  · rw [returnEnvParamsForPod_eq_none hl] at h
    simp at h
  · rcases hf : fetchSpyreCardsFromPodAnnotations isSpyreCardAnnotation spec.annotations
      with e | ⟨n, cm⟩
    · rw [returnEnvParamsForPod_eq_err hl hf] at h
      simp at h
    · rw [returnEnvParamsForPod_eq_ok hl hf] at h ⊢
      rw [demandOf_eq_ok hl hf]
      by_cases hz : n = 0
      · rw [if_pos hz]
        simp [hz]
      · rw [if_neg hz] at h ⊢
        have hsum : (cm.map (fun p => p.2)).sum = n :=
          fetch_total_eq_sum (hinj (name, spec) (mem_of_lookup_eq_some hl)) hf
        rw [allocateForContainers_success cm st _ [] h, hsum]

/-- One worker preserves the addresses and only appends to the log. -/
theorem processTemplate_inv (render : String → Env → Option String)
    (deploy : String → Option String) (templates : Templates) (name : String)
    (st : AllocState) :
    logAddrs (processTemplate render deploy templates name st).st.log ++
        (processTemplate render deploy templates name st).st.pool =
      logAddrs st.log ++ st.pool ∧
    (∃ t, (processTemplate render deploy templates name st).st.log = st.log ++ t) := by
  have hst : (processTemplate render deploy templates name st).st =
      (returnEnvParamsForPod templates name st).2.2 := by
    unfold processTemplate
    rcases returnEnvParamsForPod templates name st with ⟨env, errs2, st2⟩
    rfl
  rw [hst]
  exact returnEnvParamsForPod_inv templates name st

/-- A worker with no errors hands out exactly its template's demand. -/
theorem processTemplate_success (render : String → Env → Option String)
    (deploy : String → Option String) (templates : Templates) (name : String)
    (st : AllocState)
    (hinj : ∀ p ∈ templates, (matchedNames isSpyreCardAnnotation p.2.annotations).Nodup)
    (h : (processTemplate render deploy templates name st).errs = []) :
    ((logAddrs (processTemplate render deploy templates name st).st.log).length : Int) =
      (logAddrs st.log).length + demandOf templates name := by
  have hst : (processTemplate render deploy templates name st).st =
      (returnEnvParamsForPod templates name st).2.2 := by
    unfold processTemplate
    rcases returnEnvParamsForPod templates name st with ⟨env, errs2, st2⟩
    rfl
  have herrs : ∃ t, (processTemplate render deploy templates name st).errs =
      (returnEnvParamsForPod templates name st).2.1 ++ t := by
    unfold processTemplate
    rcases returnEnvParamsForPod templates name st with ⟨env, errs2, st2⟩
    exact ⟨_, List.append_assoc _ _ _⟩
  obtain ⟨t, ht⟩ := herrs
  rw [ht] at h
  obtain ⟨henv, -⟩ := List.append_eq_nil.mp h
  rw [hst]
  exact returnEnvParamsForPod_success templates name st hinj henv

/-- A layer preserves the addresses and only appends to the log. -/
theorem runLayer_inv (render : String → Env → Option String)
    (deploy : String → Option String) (templates : Templates) :
    ∀ (layer : List String) (st : AllocState),
    logAddrs (runLayer render deploy templates st layer).st.log ++
        (runLayer render deploy templates st layer).st.pool =
      logAddrs st.log ++ st.pool ∧
    (∃ t, (runLayer render deploy templates st layer).st.log = st.log ++ t) := by
  intro layer
  induction layer with
  | nil => intro st; exact ⟨rfl, ⟨[], by simp [runLayer]⟩⟩
  | cons name rest ih =>
    intro st
    rw [runLayer]
    obtain ⟨h1, t1, h2⟩ := processTemplate_inv render deploy templates name st
    obtain ⟨h3, t2, h4⟩ := ih (processTemplate render deploy templates name st).st
    refine ⟨by rw [h3, h1], ⟨t1 ++ t2, ?_⟩⟩
    rw [h4, h2, List.append_assoc]

/-- A fully successful layer hands out exactly the sum of its templates'
demands. -/
theorem runLayer_success (render : String → Env → Option String)
    (deploy : String → Option String) (templates : Templates)
    (hinj : ∀ p ∈ templates, (matchedNames isSpyreCardAnnotation p.2.annotations).Nodup) :
    ∀ (layer : List String) (st : AllocState),
    layerErrors (runLayer render deploy templates st layer) = [] →
    ((logAddrs (runLayer render deploy templates st layer).st.log).length : Int) =
      (logAddrs st.log).length + (layer.map (demandOf templates)).sum := by
  intro layer
  induction layer with
  | nil => intro st _; simp [runLayer]
  | cons name rest ih =>
    intro st hok
    rw [runLayer] at hok ⊢
    simp only [layerErrors, List.flatMap_cons, List.append_eq_nil, List.map_eq_nil_iff] at hok
    obtain ⟨herr, hrest⟩ := hok
    have hrest' : layerErrors (runLayer render deploy templates
        (processTemplate render deploy templates name st).st rest) = [] := hrest
    dsimp only
    rw [ih _ hrest', processTemplate_success render deploy templates name st hinj herr]
    simp only [List.map_cons, List.sum_cons]
    ring

/-- Every run of the layer loop preserves the multiset of addresses: what
is in the final log plus what remains in the pool is exactly the initial
log plus the initial pool. -/
theorem execFrom_inv (render : String → Env → Option String)
    (deploy : String → Option String) (templates : Templates) :
    ∀ (layers : List (List String)) (i : Nat) (st : AllocState) (d : Nat),
    logAddrs (execFrom render deploy templates layers i st d).2.log ++
        (execFrom render deploy templates layers i st d).2.pool =
      logAddrs st.log ++ st.pool := by
  intro layers
  induction layers with
  | nil => intro i st d; rfl
  | cons layer rest ih =>
    intro i st d
    rw [execFrom]
    obtain ⟨h1, -⟩ := runLayer_inv render deploy templates layer st
    by_cases he : (layerErrors (runLayer render deploy templates st layer)).isEmpty = true
    · rw [if_pos he]
      rw [ih, h1]
    · rw [if_neg he]
      exact h1

/-- A fully successful run hands out exactly the sum over all layers of the
per-template demands. -/
theorem execFrom_success (render : String → Env → Option String)
    (deploy : String → Option String) (templates : Templates)
    (hinj : ∀ p ∈ templates, (matchedNames isSpyreCardAnnotation p.2.annotations).Nodup) :
    ∀ (layers : List (List String)) (i : Nat) (st : AllocState) (d : Nat) (stats : RunStats),
    execFrom render deploy templates layers i st d = (.ok (), stats) →
    ((logAddrs stats.log).length : Int) =
      (logAddrs st.log).length +
        (layers.map (fun l => (l.map (demandOf templates)).sum)).sum := by
  intro layers
  induction layers with
  | nil =>
    intro i st d stats h
    rw [execFrom] at h
    obtain rfl : stats = ⟨st.pool, st.log, d, i⟩ := (congrArg Prod.snd h).symm
    simp
  | cons layer rest ih =>
    intro i st d stats h
    rw [execFrom] at h
    by_cases he : (layerErrors (runLayer render deploy templates st layer)).isEmpty = true
    · rw [if_pos he] at h
      have hlay := runLayer_success render deploy templates hinj layer st
        (List.isEmpty_iff.mp he)
      rw [ih _ _ _ stats h, hlay]
      simp only [List.map_cons, List.sum_cons]
      ring
    · rw [if_neg he] at h
      exact absurd (congrArg Prod.fst h) (by simp)

/-- Sum of a function over the flattened layers equals the sum over layers
of the per-layer sums. -/
theorem sum_over_layers (f : String → Int) :
    ∀ (layers : List (List String)),
    (layers.map (fun l => (l.map f).sum)).sum = (layers.flatten.map f).sum := by
  intro layers
  induction layers with
  | nil => rfl
  | cons layer rest ih =>
    simp only [List.map_cons, List.sum_cons, List.flatten_cons, List.map_append,
      List.sum_append, ih]

/-- The pre-flight demand calculation equals the sum of the per-template
demands (with distinct template names, as a Go map guarantees). -/
theorem calculateReqSpyreCards_eq_sum :
    ∀ (templates : Templates), (templates.map Prod.fst).Nodup →
    ∀ {req : Int}, calculateReqSpyreCards templates = .ok req →
    ((templates.map Prod.fst).map (demandOf templates)).sum = req := by
  intro templates
  induction templates with
  | nil =>
    intro _ req h
    rw [calculateReqSpyreCards] at h
    obtain rfl : (0 : Int) = req := by simpa using h
    rfl
  | cons p rest ih =>
    intro hnd req h
    obtain ⟨nm, spec⟩ := p
    rw [calculateReqSpyreCards] at h
    rcases hf : fetchSpyreCardsFromPodAnnotations isSpyreCardAnnotation spec.annotations
      with e | ⟨n, cm⟩
    · rw [hf] at h
      cases h
    · rw [hf] at h
      dsimp only at h
      rcases hc : calculateReqSpyreCards rest with e | total
      · rw [hc] at h
        cases h
      · rw [hc] at h
        dsimp only at h
        obtain rfl : total + n = req := by simpa using h
        simp only [List.map_cons, List.sum_cons]
        have hdhead : demandOf ((nm, spec) :: rest) nm = n :=
          demandOf_eq_ok (by rw [List.lookup, beq_self_eq_true]) hf
        have hnm_notin : nm ∉ rest.map Prod.fst := by
          simp only [List.map_cons, List.nodup_cons] at hnd
          exact hnd.1
        have hmap : (rest.map Prod.fst).map (demandOf ((nm, spec) :: rest)) =
            (rest.map Prod.fst).map (demandOf rest) := by
          refine List.map_congr_left ?_
          intro nm' hnm'
          have hne : (nm' == nm) = false := by
            simp only [beq_eq_false_iff_ne, ne_eq]
            rintro rfl
            exact hnm_notin hnm'
          unfold demandOf
          rw [List.lookup, hne]
        rw [hdhead, hmap, ih (by
          simp only [List.map_cons, List.nodup_cons] at hnd
          exact hnd.2) hc]
        ring

/-- Helper: once verification and the demand calculation pass, `create`
reduces to the validation gate followed by layer execution. -/
theorem createApplication_unfold_eq (render : String → Env → Option String)
    (deploy : String → Option String) (templates : Templates)
    (execs : List (List String)) (pool : List String) (req : Int)
    (hv : verifyPodTemplateExists (templates.map Prod.fst) execs = none)
    (hreq : calculateReqSpyreCards templates = .ok req) :
    createApplication render deploy templates execs pool =
      (match validateSpyreCardRequirements req (pool.length : Int) with
       | some _ => (.error (.insufficientResources req), ⟨pool, [], 0, 0⟩)
       | none =>
         match executePodTemplates render deploy templates execs pool with
         | (.ok (), stats) => (.ok (), stats)
         | (.error (i, errs), stats) => (.error (.layerErr i errs), stats)) := by
  unfold createApplication
  rw [hv, hreq]

/-- Claim C3, counterexample: the claim quantifies over *every* successful
run, but a duplicate layer reference that passes verification (see C4) is
deployed twice: with templates `{a: demand 1, b: demand 0}`, layers
`[[a, a]]` and pool `[p0, p1]`, the run succeeds and hands out 2 addresses
while the sum of the per-template computed demands is 1. -/
theorem createApplication_conservation_counterexample :
    createApplication (fun _ _ => none) (fun _ => none) dupTemplates [["a", "a"]] ["p0", "p1"] =
      (.ok (), ⟨[], [("c1", ["p0"]), ("c1", ["p1"])], 2, 1⟩) ∧
    calculateReqSpyreCards dupTemplates = .ok 1 ∧
    ((logAddrs [("c1", ["p0"]), ("c1", ["p1"])]).length : Int) = 2 ∧ (2 : Int) ≠ 1 := by
  exact ⟨rfl, rfl, rfl, by decide⟩

/-- Claim C3, amended: in every successful run whose layer references are
exactly the loaded templates (no duplicate references — which verification
does not fully enforce, see the counterexample), with distinct template
names and distinct discovered addresses, the total number of addresses
handed out across all containers equals the computed total demand, no
address is handed to more than one container, and the addresses handed out
are exactly those removed from the pool (never reused within the run). -/
theorem createApplication_conservation
    (render : String → Env → Option String) (deploy : String → Option String)
    (templates : Templates) (execs : List (List String)) (pool : List String)
    (req : Int) (stats : RunStats)
    (hnames : (templates.map Prod.fst).Nodup)
    (hinj : ∀ p ∈ templates, (matchedNames isSpyreCardAnnotation p.2.annotations).Nodup)
    (hperm : execs.flatten.Perm (templates.map Prod.fst))
    (hpool : pool.Nodup)
    (hreq : calculateReqSpyreCards templates = .ok req)
    (hrun : createApplication render deploy templates execs pool = (.ok (), stats)) :
    ((logAddrs stats.log).length : Int) = req ∧
    (logAddrs stats.log).Nodup ∧
    logAddrs stats.log ++ stats.pool = pool := by
  have hv : verifyPodTemplateExists (templates.map Prod.fst) execs = none :=
    (verify_none_iff _ _).mpr ⟨hperm.length_eq, fun t ht => hperm.mem_iff.mp ht⟩
  rw [createApplication_unfold_eq render deploy templates execs pool req hv hreq] at hrun
  have hexec : execFrom render deploy templates execs 0 ⟨pool, []⟩ 0 = (.ok (), stats) := by
    revert hrun
    unfold validateSpyreCardRequirements
    by_cases hlt : (pool.length : Int) < req
    · rw [if_pos hlt]
      dsimp only
      intro hrun
      exact absurd (congrArg Prod.fst hrun) (by simp)
    · rw [if_neg hlt]
      rcases hE : executePodTemplates render deploy templates execs pool with ⟨res, stats'⟩
      rcases res with err | u
      · obtain ⟨i, errs⟩ := err
        dsimp only
        intro hrun
        exact absurd (congrArg Prod.fst hrun) (by simp)
      · cases u
        dsimp only
        intro hrun
        obtain rfl : stats' = stats := congrArg Prod.snd hrun
        exact hE
  constructor
  · have hlen := execFrom_success render deploy templates hinj execs 0 ⟨pool, []⟩ 0 stats hexec
    rw [hlen]
    have : (logAddrs ([] : List (String × List String))).length = 0 := rfl
    rw [this, sum_over_layers (demandOf templates) execs,
      (hperm.map (demandOf templates)).sum_eq,
      calculateReqSpyreCards_eq_sum templates hnames hreq]
    simp
  · have hinvar := execFrom_inv render deploy templates execs 0 ⟨pool, []⟩ 0
    rw [hexec] at hinvar
    have hinvar' : logAddrs stats.log ++ stats.pool = pool := by
      simpa [logAddrs] using hinvar
    refine ⟨?_, hinvar'⟩
    rw [← hinvar'] at hpool
    exact hpool.of_append_left

/-- Witness for C3's amended theorem: the spec's §8 scenario — layers
`[[a], [b, c]]` with demands 1, 2, 0 over 3 distinct free addresses — a
successful run consuming all 3 addresses, each handed out exactly once. -/
theorem createApplication_conservation_witness :
    ((logAddrs [("ca", ["p0"]), ("cb", ["p1", "p2"])]).length : Int) = 3 ∧
    (logAddrs [("ca", ["p0"]), ("cb", ["p1", "p2"])]).Nodup ∧
    logAddrs [("ca", ["p0"]), ("cb", ["p1", "p2"])] ++ [] = ["p0", "p1", "p2"] := by
  exact createApplication_conservation (fun _ _ => none) (fun _ => none) fixtureTemplates
    [["a"], ["b", "c"]] ["p0", "p1", "p2"] 3
    ⟨[], [("ca", ["p0"]), ("cb", ["p1", "p2"])], 3, 2⟩
    (by decide) (by decide) (by decide) (by decide) rfl rfl

end AIServices
